import Mathlib

/-!
Verification development for the `sgrequests_cache` HTTP caching layer.

This file gives a shallow embedding, in Lean 4, of the parts of the library
that the verified properties talk about:

* the request fingerprinter (`_sorted_query` / `_build_key` in
  `sgrequests_cache/cache.py`),
* the configuration validator (`CacheConfig.__post_init__`),
* the cacheability predicate (`_is_cacheable`),
* the response serializer (`serialize_response` / `deserialize_response` in
  `sgrequests_cache/serializers.py`),
* the circuit breaker (`sgrequests_cache/circuit_breaker.py`),
* the facade request pipeline (`CachedSgRequests.request`,
  `_get_from_cache`, `_set_to_cache`, `_fetch_response`),
* the request deduplicator (`sgrequests_cache/deduplication.py`), modelled
  as a labelled transition system over explicit thread interleavings.

Modelling conventions:

* byte strings are `List Nat` (only length and equality of bodies matter
  to the verified properties);
* wall-clock instants and durations are `Int` (the code uses float seconds;
  every property proved here is order-theoretic, so the choice of an ordered
  ring of time values is immaterial);
* `hashlib.sha256(...).hexdigest()` is an opaque parameter
  `sha : List Nat → String` threaded through `build_key` (the properties do
  not depend on the digest function itself);
* the gzip / lz4 / zstd codecs are external libraries; they enter the model
  as an opaque `CodecImpls` record, with their documented round-trip contract
  taken as a hypothesis where a theorem needs it.  The `none` codec is the
  identity, exactly as in `COMPRESSORS`;
* `msgpack.packb`/`unpackb` is a faithful injective encoding, so serialized
  blobs are modelled by the payload record itself;
* Python `str` comparison (used by `sorted` in `_sorted_query`) is
  lexicographic on code points; it is re-implemented below on `List Char`
  because it must be executable inside the Lean kernel.
-/

/-! ## Python string and tuple ordering (as used by `sorted`) -/

/-- Lexicographic strict comparison of two code-point lists; this is exactly
Python's `str.__lt__` on the corresponding strings. -/
def strLtB : List Char → List Char → Bool
  | [], [] => false
  | [], _ :: _ => true
  | _ :: _, [] => false
  | a :: as, b :: bs =>
    if a.val.toNat < b.val.toNat then true
    else if b.val.toNat < a.val.toNat then false
    else strLtB as bs

/-- Python's `tuple.__lt__` on `(name, value)` string pairs. -/
def pairLtB (a b : String × String) : Bool :=
  strLtB a.1.data b.1.data || (a.1 == b.1 && strLtB a.2.data b.2.data)

/-- Non-strict version of `pairLtB`; `sorted` produces a list that is
`Pairwise` for this relation. -/
def pairLeB (a b : String × String) : Bool :=
  pairLtB a b || (a.1 == b.1 && a.2 == b.2)

/-- The ordering used by `sorted(params.multi_items())`, as a proposition. -/
def pairLe (a b : String × String) : Prop := pairLeB a b = true

instance : DecidableRel pairLe := fun a b => inferInstanceAs (Decidable (pairLeB a b = true))

/-- Python's `sorted` on a list of `(name, value)` pairs: a sort by the total
order `pairLe`.  (`sorted` is a stable sort, but `pairLe` is antisymmetric, so
every correct sort produces the same list and stability is irrelevant.) -/
def sortPairs (l : List (String × String)) : List (String × String) :=
  List.insertionSort pairLe l

/-! ## Fingerprinter (`cache.py` lines 28-38 and 125-156) -/

/-- A parsed URL as `httpx.URL` exposes it to `_build_key` and
`_sorted_query`: scheme, host, path, and the multi-valued query in order of
appearance (`httpx.QueryParams(url.query).multi_items()`). -/
structure UrlModel where
  scheme : String
  host : String
  path : String
  query : List (String × String)
deriving DecidableEq, Repr

/-- `json.dumps(s)` for a plain string without characters needing escapes. -/
def jsonStr (s : String) : String := "\"" ++ s ++ "\""

/-- `json.dumps(pairs, separators=(",", ":"))` for a list of string pairs
(each 2-tuple renders as a 2-element array). -/
def jsonPairs (l : List (String × String)) : String :=
  "[" ++ String.intercalate "," (l.map (fun p => "[" ++ jsonStr p.1 ++ "," ++ jsonStr p.2 ++ "]")) ++ "]"

/-- Embedding of `_sorted_query` (`cache.py` lines 34-38): empty query gives
`""`, otherwise the `(name, value)` pairs are sorted by Python's tuple order
and rendered as compact JSON. -/
def sorted_query (u : UrlModel) : String :=
  if u.query = [] then "" else jsonPairs (sortPairs u.query)

/-- Embedding of `_hash_bytes` (`cache.py` lines 28-31): empty or absent data
hashes to `""`, otherwise to the SHA-256 hex digest, supplied opaquely. -/
def hash_bytes (sha : List Nat → String) : Option (List Nat) → String
  | none => ""
  | some [] => ""
  | some c => sha c

/-- Case-insensitive header lookup, as `httpx.Headers.get` performs it.
Header names are matched on their lowercased form. -/
def headerGet (hs : List (String × String)) (name : String) : Option String :=
  (hs.find? (fun p => p.1.data.map Char.toLower == name.data.map Char.toLower)).map Prod.snd

/-! ## HTTP responses and configuration (`cache.py` lines 64-122, 159-176) -/

/-- The fields of an `httpx.Response` the cache layer reads: status code,
headers (name/value pairs as `resp.headers.items()` yields them, i.e. with
lowercased names), and the decoded body bytes `resp.content`. -/
structure Response where
  status_code : Int
  headers : List (String × String)
  content : List Nat
deriving DecidableEq, Repr

/-- Embedding of the `CacheConfig` dataclass (`cache.py` lines 64-93).
Numeric fields are `Int` so that invalid (negative) values are expressible,
exactly as in Python before `__post_init__` validates.  `nspace` stands for
the `namespace` field (a reserved word in Lean).
`cacheable_status_codes = none` is Python's `None`, defaulted by
`__post_init__` to `set(range(200, 300))`. -/
structure CacheConfig where
  nspace : String := "default"
  ttl_seconds : Int := 86400
  max_bytes : Int := 2 * 1024 * 1024
  vary_user_agent : Bool := false
  vary_cookies : Bool := false
  cache_by_default : Bool := true
  cache_version : String := "v1"
  enable_request_deduplication : Bool := true
  deduplication_timeout_seconds : Int := 10
  stale_while_revalidate_seconds : Int := 0
  serve_stale_on_error : Bool := false
  max_stale_age_seconds : Int := 86400
  respect_cache_headers : Bool := false
  min_ttl : Int := 60
  max_ttl : Int := 86400 * 7
  enable_circuit_breaker : Bool := true
  circuit_breaker_threshold : Int := 5
  circuit_breaker_timeout : Int := 30
  key_builder : Option (String → UrlModel → Option (List Nat) → Option (List (String × String)) → String) := none
  compression : String := "gzip"
  cacheable_status_codes : Option (List Int) := none

/-- The keys of the `COMPRESSORS` dict in `serializers.py` (lines 66-71). -/
def COMPRESSORS_keys : List String := ["gzip", "lz4", "zstd", "none"]

/-- Embedding of `CacheConfig.__post_init__` (`cache.py` lines 95-122): the
checks in source order; `Except.error` is a raised `ValueError`.  The
defaulting of `cacheable_status_codes` is handled at every use site by
`statusAllowed`. -/
def validateConfig (cfg : CacheConfig) : Except String Unit :=
  if cfg.ttl_seconds < 0 then .error "ttl_seconds must be >= 0"
  else if cfg.max_bytes < 0 then .error "max_bytes must be >= 0"
  else if ¬ COMPRESSORS_keys.contains cfg.compression then .error "Invalid compression"
  else if cfg.min_ttl < 0 ∨ cfg.max_ttl < 0 then .error "min_ttl and max_ttl must be >= 0"
  else if cfg.min_ttl > cfg.max_ttl then .error "min_ttl cannot be greater than max_ttl"
  else if cfg.circuit_breaker_threshold < 1 then .error "circuit_breaker_threshold must be >= 1"
  else if cfg.deduplication_timeout_seconds < 1 then .error "deduplication_timeout_seconds must be >= 1"
  else .ok ()

/-- `resp.status_code in config.cacheable_status_codes`, after
`__post_init__` defaulted `None` to `set(range(200, 300))`. -/
def statusAllowed (cfg : CacheConfig) (s : Int) : Bool :=
  match cfg.cacheable_status_codes with
  | some l => l.contains s
  | none => 200 ≤ s && s < 300

/-- Embedding of `_build_key` (`cache.py` lines 125-156).  `sha` stands for
`hashlib.sha256(...).hexdigest()`.  The `headers` argument is `None` or the
header pairs of the outgoing request. -/
def build_key (sha : List Nat → String) (method : String) (u : UrlModel)
    (content : Option (List Nat)) (headers : Option (List (String × String)))
    (cfg : CacheConfig) : String :=
  let normalized := u.scheme ++ "://" ++ u.host ++ u.path
  let q := sorted_query u
  let body_hash :=
    if ["POST", "PUT", "PATCH"].contains method ∧ content.getD [] ≠ [] then
      hash_bytes sha content
    else ""
  let ua :=
    match headers with
    | none => ""
    | some hs => if cfg.vary_user_agent then (headerGet hs "user-agent").getD "" else ""
  let ck :=
    match headers with
    | none => ""
    | some hs => if cfg.vary_cookies then (headerGet hs "cookie").getD "" else ""
  "ver:" ++ cfg.cache_version ++ "|ns:" ++ cfg.nspace ++ "|m:" ++ method ++
    "|u:" ++ normalized ++ "|q:" ++ q ++ "|b:" ++ body_hash ++
    "|ua:" ++ ua ++ "|ck:" ++ ck

/-- Embedding of `_is_cacheable` (`cache.py` lines 159-176).  A declared
content-type that is the empty string is falsy in Python (`if ctype:`), so it
is treated like an absent header, and the prefix test is performed on the
lowercased value. -/
def is_cacheable (resp : Response) (cfg : CacheConfig) : Bool :=
  if ¬ statusAllowed cfg resp.status_code then false
  else if resp.status_code = 204 then false
  else
    let ctype := ((headerGet resp.headers "content-type").getD "").data.map Char.toLower
    if ctype ≠ [] ∧
        ¬ (("text/".data.isPrefixOf ctype) ∨ ("application/json".data.isPrefixOf ctype) ∨
           ("application/xhtml".data.isPrefixOf ctype)) then false
    else if (resp.content.length : Int) > cfg.max_bytes then false
    else true

/-! ## Serializer (`serializers.py` lines 66-136) -/

/-- The external compression libraries behind `COMPRESSORS`: opaque byte
transformations for gzip, lz4 and zstd.  (`none` is the identity pair in the
source and is modelled concretely below.) -/
structure CodecImpls where
  gzipC : List Nat → List Nat
  gzipD : List Nat → List Nat
  lz4C : List Nat → List Nat
  lz4D : List Nat → List Nat
  zstdC : List Nat → List Nat
  zstdD : List Nat → List Nat

/-- The `COMPRESSORS` dict (`serializers.py` lines 66-71): codec tag to
`(compress, decompress)` pair; unknown tags are absent. -/
def COMPRESSORS_find (ci : CodecImpls) : String → Option ((List Nat → List Nat) × (List Nat → List Nat))
  | "gzip" => some (ci.gzipC, ci.gzipD)
  | "lz4" => some (ci.lz4C, ci.lz4D)
  | "zstd" => some (ci.zstdC, ci.zstdD)
  | "none" => some (id, id)
  | _ => none

/-- `COMPRESSORS.get(tag, COMPRESSORS["gzip"])`, the lookup used by both
`serialize_response` and `deserialize_response`. -/
def COMPRESSORS_getD (ci : CodecImpls) (tag : String) : (List Nat → List Nat) × (List Nat → List Nat) :=
  (COMPRESSORS_find ci tag).getD (ci.gzipC, ci.gzipD)

/-- The msgpack payload built by `serialize_response` (`serializers.py`
lines 93-103).  msgpack is a faithful injective encoding, so the blob is
modelled by this record itself. -/
structure SerializedPayload where
  status : Int
  url : String
  http_version : String
  reason : String
  headers : List (String × String)
  encoding : Option String
  cached_at : Int
  compression : String
  body_compressed : List Nat
deriving DecidableEq, Repr

/-- The header stripping in `serialize_response` (lines 88-89):
`headers.pop('content-encoding', None); headers.pop('content-length', None)`
on the dict of lowercased header items. -/
def stripHeaders (hs : List (String × String)) : List (String × String) :=
  hs.filter (fun p => p.1 ≠ "content-encoding" ∧ p.1 ≠ "content-length")

/-- Embedding of `serialize_response` (`serializers.py` lines 74-104).
`now` is the `time.time()` recorded into `cached_at`; `url`, `http_version`,
`reason` and `encoding` are the corresponding response attributes, passed
explicitly because the cache layer never reads them back into the model's
`Response`. -/
def serialize_response (ci : CodecImpls) (resp : Response) (compression : String)
    (now : Int) (url http_version reason : String) (encoding : Option String) :
    SerializedPayload :=
  { status := resp.status_code
    url := url
    http_version := http_version
    reason := reason
    headers := stripHeaders resp.headers
    encoding := encoding
    cached_at := now
    compression := compression
    body_compressed := (COMPRESSORS_getD ci compression).1 resp.content }

/-- A stored blob as the facade sees it on read: either a payload that
msgpack can decode, or bytes on which `msgpack.unpackb` (or the decompressor)
raises. -/
inductive Blob where
  | good (p : SerializedPayload)
  | corrupt
deriving DecidableEq, Repr

/-- Embedding of `deserialize_response` (`serializers.py` lines 107-136) on a
decodable blob: body is decompressed with the tagged codec (falling back to
gzip for unknown tags) and the response is rebuilt from status, headers and
body; the recorded `cached_at` is returned alongside.  A corrupt blob is a
raised exception (`Except.error`). -/
def deserialize_response (ci : CodecImpls) : Blob → Except Unit (Response × Int)
  | .corrupt => .error ()
  | .good p =>
    .ok ({ status_code := p.status
           headers := p.headers
           content := (COMPRESSORS_getD ci p.compression).2 p.body_compressed },
         p.cached_at)

/-! ## Circuit breaker (`circuit_breaker.py`) -/

/-- The three states of `CircuitBreaker` (`circuit_breaker.py` lines 33-35). -/
inductive CBState where
  | closed
  | isOpen
  | halfOpen
deriving DecidableEq, Repr

/-- The mutable fields of `CircuitBreaker` (`circuit_breaker.py` lines
45-49); `__init__` starts at `failures = 0`, `last_failure_time = 0`,
`state = CLOSED`. -/
structure CircuitBreaker where
  threshold : Int
  timeout : Int
  failures : Int
  last_failure_time : Int
  state : CBState
deriving DecidableEq, Repr

/-- `CircuitBreaker(threshold, timeout)` freshly constructed. -/
def CircuitBreaker.init (threshold timeout : Int) : CircuitBreaker :=
  { threshold := threshold, timeout := timeout, failures := 0,
    last_failure_time := 0, state := .closed }

/-- The two ways `CircuitBreaker.call` can fail: the distinguished
`CircuitBreakerOpenError`, or re-raising the wrapped operation's exception. -/
inductive CallErr (ε : Type) where
  | openErr
  | fnErr (e : ε)
deriving DecidableEq, Repr

/-- Embedding of `CircuitBreaker.call` (`circuit_breaker.py` lines 52-105).
The wrapped callable is represented by its outcome `fn`; `now` is
`time.time()`.  In `OPEN`, if `now - last_failure_time > timeout` the breaker
moves to `HALF_OPEN` and the operation runs, otherwise
`CircuitBreakerOpenError` is raised without running it.  On success a
`HALF_OPEN` breaker closes and resets `failures`; on failure `failures` is
incremented, `last_failure_time` updated, and the breaker opens when
`failures >= threshold`. -/
def CircuitBreaker.call {ε α : Type} (cb : CircuitBreaker) (now : Int)
    (fn : Except ε α) : Except (CallErr ε) α × CircuitBreaker :=
  if cb.state = .isOpen ∧ ¬ (now - cb.last_failure_time > cb.timeout) then
    (.error .openErr, cb)
  else
    let cb1 := if cb.state = .isOpen then { cb with state := .halfOpen } else cb
    match fn with
    | .ok a =>
      let cb2 := if cb1.state = .halfOpen then { cb1 with state := .closed, failures := 0 } else cb1
      (.ok a, cb2)
    | .error e =>
      let f := cb1.failures + 1
      let cb2 := { cb1 with
        failures := f
        last_failure_time := now
        state := if f ≥ cb1.threshold then .isOpen else cb1.state }
      (.error (.fnErr e), cb2)

/-- `CircuitBreaker.reset` (`circuit_breaker.py` lines 107-112). -/
def CircuitBreaker.reset (cb : CircuitBreaker) : CircuitBreaker :=
  { cb with state := .closed, failures := 0 }

/-- The breaker states reachable from a fresh `CircuitBreaker(th, to)` by any
sequence of `call`s and `reset`s.  Only `Except.isOk fn` influences the state
evolution, so the step quantifies over a boolean outcome. -/
inductive CBReach : CircuitBreaker → Prop where
  | init (th tmo : Int) : CBReach (CircuitBreaker.init th tmo)
  | call_step {cb : CircuitBreaker} (h : CBReach cb) (now : Int) (ok : Bool) :
      CBReach (cb.call (ε := Unit) (α := Unit) now (if ok then .ok () else .error ())).2
  | reset_step {cb : CircuitBreaker} (h : CBReach cb) : CBReach cb.reset

/-! ## Facade request pipeline (`cache.py` lines 252-481) -/

/-- Embedding of `CachedSgRequests._get_from_cache` (`cache.py` lines
459-469).  `getResult` is the outcome of `self.backend.get(key)`: bytes,
absence, or a raised exception.  With a breaker configured the call is
wrapped by `CircuitBreaker.call`; only `CircuitBreakerOpenError` is caught
and turned into a miss (`None`) — any exception raised by `backend.get`
itself is re-raised. -/
def get_from_cache (cb : Option CircuitBreaker) (getResult : Except String (Option Blob))
    (now : Int) : Except String (Option Blob) × Option CircuitBreaker :=
  match cb with
  | none => (getResult, none)
  | some c =>
    match c.call now getResult with
    | (.ok v, c') => (.ok v, some c')
    | (.error .openErr, c') => (.ok none, some c')
    | (.error (.fnErr e), c') => (.error e, some c')

/-- Embedding of `CachedSgRequests._set_to_cache` (`cache.py` lines
471-480) against a healthy backend (`backend.set` returns normally, as the
in-memory map backend does).  Returns whether the write was performed: with
a breaker configured, a raised `CircuitBreakerOpenError` skips the write. -/
def set_to_cache (cb : Option CircuitBreaker) (now : Int) : Bool × Option CircuitBreaker :=
  match cb with
  | none => (true, none)
  | some c =>
    match c.call (ε := Unit) now (.ok ()) with
    | (.ok _, c') => (true, some c')
    | (.error _, c') => (false, some c')

/-- Embedding of `CachedSgRequests._fetch_response` (`cache.py` lines
409-439).  `upstream` is the outcome of `self.inner.request(...)`;
`staleLookup` is what `self.backend.get` returns for the key that line 425
rebuilds with `_build_key`.  On an upstream exception with
`serve_stale_on_error` enabled, a deserializable entry of age at most
`max_stale_age_seconds` is returned; otherwise the original exception is
re-raised. -/
def fetch_response (ci : CodecImpls) (cfg : CacheConfig)
    (upstream : Except String Response) (staleLookup : Option Blob) (now : Int) :
    Except String Response :=
  match upstream with
  | .ok r => .ok r
  | .error e =>
    if cfg.serve_stale_on_error then
      match staleLookup with
      | some b =>
        match deserialize_response ci b with
        | .ok (r, cached_at) =>
          if now - cached_at ≤ cfg.max_stale_age_seconds then .ok r else .error e
        | .error _ => .error e
      | none => .error e
    else .error e

/-- What `CachedSgRequests.request` can raise: a propagated upstream
exception, or an exception of the cache layer itself (a backend read error
escaping `_get_from_cache`). -/
inductive ReqErr where
  | upstream (e : String)
  | cacheLayer (e : String)
deriving DecidableEq, Repr

/-- The observable effects of one `CachedSgRequests.request` call. -/
structure ReqOutcome where
  result : Except ReqErr Response
  fetched : Bool
  refreshes : Nat
  writes : List (String × SerializedPayload × Int)
  deleted : List String
  cb : Option CircuitBreaker
deriving Repr

/-- The miss branch of `request` (`cache.py` lines 344-386): fetch (the
deduplicator, when it routes the call, runs the same fetch since no other
call is in flight in a sequential execution), then write back when
`cache_write` holds and the response is cacheable, the write going through
the circuit breaker.  `adaptive` stands for `_calculate_adaptive_ttl` and
`meta` for the response attributes (`url`, `http_version`, `reason_phrase`,
`encoding`) that `serialize_response` records but the cache layer never
reads back. -/
def requestMiss (ci : CodecImpls) (cfg : CacheConfig) (cb1 : Option CircuitBreaker)
    (key : String) (staleLookup : Option Blob) (cache_write : Bool) (now : Int)
    (upstream : Except String Response) (adaptive : Response → Int)
    (meta : Response → String × String × String × Option String)
    (deleted : List String) : ReqOutcome :=
  match fetch_response ci cfg upstream staleLookup now with
  | .error e =>
    { result := .error (.upstream e), fetched := true, refreshes := 0,
      writes := [], deleted := deleted, cb := cb1 }
  | .ok resp =>
    if cache_write ∧ is_cacheable resp cfg then
      let ttlW := if cfg.respect_cache_headers then adaptive resp else cfg.ttl_seconds
      let m := meta resp
      let payload := serialize_response ci resp cfg.compression now m.1 m.2.1 m.2.2.1 m.2.2.2
      let sc := set_to_cache cb1 now
      { result := .ok resp, fetched := true, refreshes := 0,
        writes := if sc.1 then [(key, payload, ttlW)] else [],
        deleted := deleted, cb := sc.2 }
    else
      { result := .ok resp, fetched := true, refreshes := 0,
        writes := [], deleted := deleted, cb := cb1 }

/-- Embedding of `CachedSgRequests.request` (`cache.py` lines 252-386) after
the read/write flags have been resolved (per-call override, config default,
URL-policy veto) and the key has been computed.  `getResult` is what
`self.backend.get(key)` yields during the read phase, `staleLookup` what it
yields for the `_build_key` key during `_fetch_response`'s
serve-stale-on-error lookup.  `refreshes` counts background refresh threads
started (line 329); their later effects are outside this call. -/
def requestCore (ci : CodecImpls) (cfg : CacheConfig) (cb0 : Option CircuitBreaker)
    (key : String) (getResult : Except String (Option Blob)) (staleLookup : Option Blob)
    (cache_read cache_write force_refresh : Bool) (now : Int)
    (upstream : Except String Response) (adaptive : Response → Int)
    (meta : Response → String × String × String × Option String) : ReqOutcome :=
  if cache_read ∧ ¬ force_refresh then
    match get_from_cache cb0 getResult now with
    | (.error e, cb1) =>
      { result := .error (.cacheLayer e), fetched := false, refreshes := 0,
        writes := [], deleted := [], cb := cb1 }
    | (.ok none, cb1) =>
      requestMiss ci cfg cb1 key staleLookup cache_write now upstream adaptive meta []
    | (.ok (some b), cb1) =>
      match deserialize_response ci b with
      | .ok (resp, cached_at) =>
        let age := now - cached_at
        if age ≤ cfg.ttl_seconds then
          { result := .ok resp, fetched := false, refreshes := 0,
            writes := [], deleted := [], cb := cb1 }
        else if cfg.stale_while_revalidate_seconds > 0 ∧
            age ≤ cfg.ttl_seconds + cfg.stale_while_revalidate_seconds then
          { result := .ok resp, fetched := false, refreshes := 1,
            writes := [], deleted := [], cb := cb1 }
        else
          requestMiss ci cfg cb1 key staleLookup cache_write now upstream adaptive meta []
      | .error _ =>
        requestMiss ci cfg cb1 key staleLookup cache_write now upstream adaptive meta [key]
  else
    requestMiss ci cfg cb0 key staleLookup cache_write now upstream adaptive meta []

/-! ## Map-backed facade (`CachedSgRequests` against the memory backend) -/

/-- An in-process backend store: an association list of key/blob pairs (the
memory backend's dict; expiry inspection is the facade's job, so the entry
is just the blob). -/
def storeGet (m : List (String × Blob)) (k : String) : Option Blob :=
  (m.find? (fun p => p.1 == k)).map Prod.snd

/-- `backend.set`: silently overwrite. -/
def storeSet (m : List (String × Blob)) (k : String) (b : Blob) : List (String × Blob) :=
  (k, b) :: m.filter (fun p => ¬ (p.1 == k))

/-- `backend.delete`: idempotent. -/
def storeDel (m : List (String × Blob)) (k : String) : List (String × Blob) :=
  m.filter (fun p => ¬ (p.1 == k))

/-- The facade's state across calls: the backend contents and the breaker. -/
structure FacadeState where
  store : List (String × Blob)
  cb : Option CircuitBreaker

/-- Whether the read phase of `request` hits a corrupt entry (deserialization
failure) and so deletes the key (`cache.py` lines 336-342) before any fetch;
the serve-stale-on-error lookup then sees the store after that delete. -/
def corruptRead (ci : CodecImpls) (cb : Option CircuitBreaker)
    (getResult : Except String (Option Blob)) (now : Int) : Bool :=
  match (get_from_cache cb getResult now).1 with
  | .ok (some b) =>
    match deserialize_response ci b with
    | .error _ => true
    | .ok _ => false
  | _ => false

/-- One `CachedSgRequests.request` call against the in-memory store: the key
is the configured `key_builder`'s when present and otherwise `_build_key`'s
(`cache.py` lines 276-280), while `_fetch_response`'s serve-stale lookup
always uses `_build_key` (line 425).  Returns the call's outcome and the
facade state afterwards (corrupt-entry delete and cache write applied). -/
def facadeRequest (sha : List Nat → String) (ci : CodecImpls) (cfg : CacheConfig)
    (st : FacadeState) (method : String) (u : UrlModel) (content : Option (List Nat))
    (headers : Option (List (String × String)))
    (cache_read cache_write force_refresh : Bool) (now : Int)
    (upstream : Except String Response) (adaptive : Response → Int)
    (meta : Response → String × String × String × Option String) :
    ReqOutcome × FacadeState :=
  let defaultKey := build_key sha method u content headers cfg
  let key := match cfg.key_builder with
    | some kb => kb method u content headers
    | none => defaultKey
  let getResult : Except String (Option Blob) := .ok (storeGet st.store key)
  let deletesKey := cache_read ∧ ¬ force_refresh ∧ corruptRead ci st.cb getResult now
  let store1 := if deletesKey then storeDel st.store key else st.store
  let staleLookup := storeGet store1 defaultKey
  let out := requestCore ci cfg st.cb key getResult staleLookup
    cache_read cache_write force_refresh now upstream adaptive meta
  let store2 := out.writes.foldl (fun m w => storeSet m w.1 (.good w.2.1)) store1
  (out, { store := store2, cb := out.cb })

/-! ## Request deduplicator (`deduplication.py`), as a transition system

`RequestDeduplicator.get_or_fetch` is thread-coordination code, so it is
modelled as a labelled transition system over explicit interleavings of the
lock-protected sections, for a single key.  Each in-flight fetch gets a fresh
generation number standing for the `threading.Event` created for it; the
shared tables `_results` / `_errors` (which hold at most the entry for our
key) and `_in_flight` are fields of the global state.  `_errors[key]` can be
present-and-`None` (set on success), which is `some none` below.

Atomic steps and the code lines they embed:
* caller registration (lines 49-57): one lock section;
* fetcher completion (lines 62-78): record result or error, drop the
  in-flight slot, set the event, schedule the grace cleanup.  The record and
  the `event.set()` are collapsed into one step; a waiter's read is a
  separate step enabled at any time (an `event.wait(timeout)` return is a
  timeout wake when the event is unset), so every read the real code can
  perform is still representable;
* waiter wake and read (lines 81-93): one lock section;
* the `threading.Timer` cleanup (lines 95-100): fires at any later point.
-/

/-- A caller's final disposition: returned a recorded (or own-fetch) value,
re-raised a recorded (or own-fetch) error, or — for a waiter that woke to
find neither — fell back to invoking the fetch function itself. -/
inductive COutcome (V E : Type) where
  | returned (v : V)
  | raised (e : E)
  | fellBack
deriving DecidableEq, Repr

/-- Where a caller stands in `get_or_fetch`. -/
inductive CPhase (V E : Type) where
  | start
  | fetching (gen : Nat)
  | waiting (gen : Nat)
  | done (o : COutcome V E)
deriving DecidableEq, Repr

/-- Global state of one `RequestDeduplicator` key plus its callers. -/
structure DState (V E : Type) where
  inFlight : Option Nat
  results : Option V
  errors : Option (Option E)
  eventSet : List Nat
  nextGen : Nat
  pending : List Nat
  callers : List (CPhase V E)
deriving DecidableEq, Repr

/-- Initial state: fresh deduplicator, `n` callers about to enter. -/
def dedupInit (V E : Type) (n : Nat) : DState V E :=
  { inFlight := none, results := none, errors := none, eventSet := [],
    nextGen := 0, pending := [], callers := List.replicate n .start }

/-- What a woken waiter does under the lock (lines 83-93): a recorded
non-`None` error is re-raised; else a recorded result is returned; else the
caller falls back to fetching itself. -/
def wakeOutcome {V E : Type} (errors : Option (Option E)) (results : Option V) : COutcome V E :=
  match errors with
  | some (some e) => .raised e
  | _ =>
    match results with
    | some v => .returned v
    | none => .fellBack

/-- One atomic step of the deduplicator system. -/
inductive DStep {V E : Type} : DState V E → DState V E → Prop where
  | arrive_fetcher (s : DState V E) (i : Nat)
      (hc : s.callers[i]? = some .start) (hf : s.inFlight = none) :
      DStep s { s with inFlight := some s.nextGen, nextGen := s.nextGen + 1,
                       callers := s.callers.set i (.fetching s.nextGen) }
  | arrive_waiter (s : DState V E) (i g : Nat)
      (hc : s.callers[i]? = some .start) (hf : s.inFlight = some g) :
      DStep s { s with callers := s.callers.set i (.waiting g) }
  | fetch_ok (s : DState V E) (i g : Nat) (v : V)
      (hc : s.callers[i]? = some (.fetching g)) :
      DStep s { s with results := some v, errors := some none, inFlight := none,
                       eventSet := g :: s.eventSet, pending := g :: s.pending,
                       callers := s.callers.set i (.done (.returned v)) }
  | fetch_err (s : DState V E) (i g : Nat) (e : E)
      (hc : s.callers[i]? = some (.fetching g)) :
      DStep s { s with errors := some (some e), inFlight := none,
                       eventSet := g :: s.eventSet, pending := g :: s.pending,
                       callers := s.callers.set i (.done (.raised e)) }
  | wake (s : DState V E) (i g : Nat)
      (hc : s.callers[i]? = some (.waiting g)) :
      DStep s { s with callers := s.callers.set i (.done (wakeOutcome s.errors s.results)) }
  | cleanup (s : DState V E) (g : Nat) (hg : g ∈ s.pending) :
      DStep s { s with results := none, errors := none, pending := s.pending.erase g }

/-- Reachability along deduplicator steps. -/
def DReach {V E : Type} : DState V E → DState V E → Prop := Relation.ReflTransGen DStep

/-! ## Auxiliary definitions used by the statements below -/

/-- A breaker position that does not fail fast at instant `now`: either no
breaker is configured, or it is not in `OPEN` within its recovery timeout.
(`CircuitBreaker.call` runs the wrapped operation exactly in this case.) -/
def cbNotBlocking (cb : Option CircuitBreaker) (now : Int) : Prop :=
  ∀ c, cb = some c → c.state = .isOpen → now - c.last_failure_time > c.timeout

/-- Identity implementations for the opaque codecs; used to instantiate
concrete scenarios (the `none` codec of `COMPRESSORS` is the identity). -/
def idCodecs : CodecImpls :=
  { gzipC := id, gzipD := id, lz4C := id, lz4D := id, zstdC := id, zstdD := id }

/-- A concrete serialized payload (body stored under the `none` codec),
created at instant 0; used in concrete scenarios. -/
def samplePayload : SerializedPayload :=
  { status := 200, url := "https://h/p", http_version := "HTTP/1.1", reason := "OK",
    headers := [], encoding := none, cached_at := 0, compression := "none",
    body_compressed := [7, 7] }

/-- States of a concrete three-caller deduplicator execution; `dedupS0` is
the initial state. -/
def dedupS0 : DState Nat Unit := dedupInit Nat Unit 3

/-- Caller 0 has registered as the fetcher of generation 0. -/
def dedupS1 : DState Nat Unit :=
  { inFlight := some 0, results := none, errors := none, eventSet := [],
    nextGen := 1, pending := [],
    callers := [.fetching 0, .start, .start] }

/-- Caller 1 arrived while generation 0 was in flight and waits on its
event. -/
def dedupS2 : DState Nat Unit :=
  { dedupS1 with callers := [.fetching 0, .waiting 0, .start] }

/-- Caller 0's fetch returned the value 1: result recorded, slot removed,
event set, cleanup scheduled. -/
def dedupS3 : DState Nat Unit :=
  { inFlight := none, results := some 1, errors := some none, eventSet := [0],
    nextGen := 1, pending := [0],
    callers := [.done (.returned 1), .waiting 0, .start] }

/-- Caller 2 arrived after generation 0 completed and registered as the
fetcher of generation 1. -/
def dedupS4 : DState Nat Unit :=
  { dedupS3 with
    inFlight := some 1
    nextGen := 2
    callers := [.done (.returned 1), .waiting 0, .fetching 1] }

/-- Caller 2's fetch returned the value 2, overwriting the recorded result
of generation 0 while caller 1 is still between its event wake-up and its
read of the tables. -/
def dedupS5 : DState Nat Unit :=
  { inFlight := none, results := some 2, errors := some none,
    eventSet := [1, 0], nextGen := 2, pending := [1, 0],
    callers := [.done (.returned 1), .waiting 0, .done (.returned 2)] }

/-- Caller 1 finally acquires the lock and reads the tables: it returns 2,
the value of generation 1's fetch, not of the fetch it waited on. -/
def dedupS6 : DState Nat Unit :=
  { dedupS5 with
    callers := [.done (.returned 1), .done (.returned 2), .done (.returned 2)] }

/-- The cacheability predicate exactly as the specification words it (the
spec-side counterpart of the source-side `is_cacheable`): status in
`cacheable_status_codes` (default 200..299), status not 204, declared
content-type absent (no header, or an empty value, which Python's
`if ctype:` treats as absent) or beginning case-insensitively with `text/`,
`application/json` or `application/xhtml`, and body length at most
`max_bytes`. -/
def specCacheable (r : Response) (cfg : CacheConfig) : Prop :=
  statusAllowed cfg r.status_code = true ∧
  r.status_code ≠ 204 ∧
  (((headerGet r.headers "content-type").getD "").data.map Char.toLower = [] ∨
   "text/".data.isPrefixOf (((headerGet r.headers "content-type").getD "").data.map Char.toLower) ∨
   "application/json".data.isPrefixOf (((headerGet r.headers "content-type").getD "").data.map Char.toLower) ∨
   "application/xhtml".data.isPrefixOf (((headerGet r.headers "content-type").getD "").data.map Char.toLower)) ∧
  (r.content.length : Int) ≤ cfg.max_bytes

/-! ## Properties of the Python ordering and of `sortPairs` -/

theorem strLtB_irrefl (a : List Char) : strLtB a a = false := by
  induction a with
  | nil => rfl
  | cons x xs ih => simp [strLtB, ih]

theorem strLtB_trans (a : List Char) : ∀ (b c : List Char),
    strLtB a b = true → strLtB b c = true → strLtB a c = true := by
  induction a with
  | nil =>
    intro b c h1 h2
    cases b with
    | nil => simp [strLtB] at h1
    | cons y ys =>
      cases c with
      | nil => simp [strLtB] at h2
      | cons z zs => simp [strLtB]
  | cons x xs ih =>
    intro b c h1 h2
    cases b with
    | nil => simp [strLtB] at h1
    | cons y ys =>
      cases c with
      | nil => simp [strLtB] at h2
      | cons z zs =>
        by_cases hxy : x.val.toNat < y.val.toNat
        · by_cases hyz : y.val.toNat < z.val.toNat
          · have hxz : x.val.toNat < z.val.toNat := Nat.lt_trans hxy hyz
            simp [strLtB, hxz]
          · by_cases hzy : z.val.toNat < y.val.toNat
            · simp [strLtB, hyz, hzy] at h2
            · have hxz : x.val.toNat < z.val.toNat := by omega
              simp [strLtB, hxz]
        · by_cases hyx : y.val.toNat < x.val.toNat
          · simp [strLtB, hxy, hyx] at h1
          · by_cases hyz : y.val.toNat < z.val.toNat
            · have hxz : x.val.toNat < z.val.toNat := by omega
              simp [strLtB, hxz]
            · by_cases hzy : z.val.toNat < y.val.toNat
              · simp [strLtB, hyz, hzy] at h2
              · have hxz : ¬ x.val.toNat < z.val.toNat := by omega
                have hzx : ¬ z.val.toNat < x.val.toNat := by omega
                simp [strLtB, hxy, hyx] at h1
                simp [strLtB, hyz, hzy] at h2
                simp [strLtB, hxz, hzx]
                exact ih ys zs h1 h2

theorem strLtB_conn (a : List Char) : ∀ (b : List Char),
    strLtB a b = false → strLtB b a = false → a = b := by
  induction a with
  | nil =>
    intro b h1 _
    cases b with
    | nil => rfl
    | cons y ys => simp [strLtB] at h1
  | cons x xs ih =>
    intro b h1 h2
    cases b with
    | nil => simp [strLtB] at h2
    | cons y ys =>
      by_cases hxy : x.val.toNat < y.val.toNat
      · simp [strLtB, hxy] at h1
      · by_cases hyx : y.val.toNat < x.val.toNat
        · simp [strLtB, hyx] at h2
        · have hv : x = y := Char.ext (UInt32.ext (by omega))
          subst hv
          simp [strLtB, hxy] at h1 h2
          rw [ih ys h1 h2]

theorem strLtB_asymm {a b : List Char} (h : strLtB a b = true) : strLtB b a = false := by
  by_contra hc
  have hba : strLtB b a = true := by
    cases hh : strLtB b a
    · exact absurd hh hc
    · rfl
  have := strLtB_trans a b a h hba
  rw [strLtB_irrefl] at this
  exact Bool.false_ne_true this

theorem pairLtB_irrefl (a : String × String) : pairLtB a a = false := by
  simp [pairLtB, strLtB_irrefl]

theorem pairLtB_trans {a b c : String × String}
    (h1 : pairLtB a b = true) (h2 : pairLtB b c = true) : pairLtB a c = true := by
  simp only [pairLtB, Bool.or_eq_true, Bool.and_eq_true, beq_iff_eq] at h1 h2 ⊢
  rcases h1 with h1 | ⟨h1e, h1s⟩
  · rcases h2 with h2 | ⟨h2e, h2s⟩
    · exact Or.inl (strLtB_trans _ _ _ h1 h2)
    · exact Or.inl (h2e ▸ h1)
  · rcases h2 with h2 | ⟨h2e, h2s⟩
    · exact Or.inl (h1e ▸ h2)
    · exact Or.inr ⟨h1e.trans h2e, strLtB_trans _ _ _ h1s h2s⟩

theorem pairLtB_conn {a b : String × String}
    (h1 : pairLtB a b = false) (h2 : pairLtB b a = false) : a = b := by
  simp only [pairLtB, Bool.or_eq_false_iff, Bool.and_eq_false_iff] at h1 h2
  obtain ⟨h1f, h1r⟩ := h1
  obtain ⟨h2f, h2r⟩ := h2
  have hf : a.1 = b.1 := String.ext (strLtB_conn _ _ h1f h2f)
  have hs : a.2 = b.2 := by
    rcases h1r with h1r | h1r
    · rw [hf] at h1r; simp at h1r
    · rcases h2r with h2r | h2r
      · rw [hf] at h2r; simp at h2r
      · exact String.ext (strLtB_conn _ _ h1r h2r)
  exact Prod.ext hf hs

theorem pairLe_total (a b : String × String) : pairLe a b ∨ pairLe b a := by
  by_cases h1 : pairLtB a b = true
  · exact Or.inl (by simp [pairLe, pairLeB, h1])
  · by_cases h2 : pairLtB b a = true
    · exact Or.inr (by simp [pairLe, pairLeB, h2])
    · have he : a = b := pairLtB_conn (Bool.eq_false_iff.mpr h1) (Bool.eq_false_iff.mpr h2)
      subst he
      exact Or.inl (by simp [pairLe, pairLeB])

theorem pairLe_trans {a b c : String × String} (h1 : pairLe a b) (h2 : pairLe b c) :
    pairLe a c := by
  simp only [pairLe, pairLeB, Bool.or_eq_true, Bool.and_eq_true, beq_iff_eq] at h1 h2 ⊢
  rcases h1 with h1 | ⟨h1a, h1b⟩
  · rcases h2 with h2 | ⟨h2a, h2b⟩
    · exact Or.inl (pairLtB_trans h1 h2)
    · have : b = c := Prod.ext h2a h2b
      exact Or.inl (this ▸ h1)
  · have : a = b := Prod.ext h1a h1b
    subst this
    exact h2

theorem pairLe_antisymm {a b : String × String} (h1 : pairLe a b) (h2 : pairLe b a) :
    a = b := by
  simp only [pairLe, pairLeB, Bool.or_eq_true, Bool.and_eq_true, beq_iff_eq] at h1 h2
  rcases h1 with h1 | ⟨h1a, h1b⟩
  · rcases h2 with h2 | ⟨h2a, h2b⟩
    · have := pairLtB_trans h1 h2
      rw [pairLtB_irrefl] at this
      exact absurd this Bool.false_ne_true
    · exact (Prod.ext h2a h2b).symm
  · exact Prod.ext h1a h1b

/-- Sorting by the total order `pairLe` is a function of the multiset of
pairs: permuted inputs sort to the same list. -/
theorem sortPairs_eq_of_perm {l1 l2 : List (String × String)} (h : l1.Perm l2) :
    sortPairs l1 = sortPairs l2 := by
  haveI : IsAntisymm (String × String) pairLe := ⟨fun _ _ => pairLe_antisymm⟩
  haveI : IsTotal (String × String) pairLe := ⟨pairLe_total⟩
  haveI : IsTrans (String × String) pairLe := ⟨fun _ _ _ => pairLe_trans⟩
  exact List.eq_of_perm_of_sorted
    ((List.perm_insertionSort pairLe l1).trans (h.trans (List.perm_insertionSort pairLe l2).symm))
    (List.sorted_insertionSort pairLe l1)
    (List.sorted_insertionSort pairLe l2)

/-! ## C2 — fingerprints and query-parameter order -/

theorem sorted_query_eq_of_perm {u1 u2 : UrlModel} (h : u1.query.Perm u2.query) :
    sorted_query u1 = sorted_query u2 := by
  unfold sorted_query
  by_cases h1 : u1.query = []
  · have h2 : u2.query = [] := (h1 ▸ h).symm.eq_nil
    simp [h1, h2]
  · have h2 : u2.query ≠ [] := by
      intro hc
      exact h1 (h.symm.symm.trans (hc ▸ List.Perm.refl [])).eq_nil
    simp only [h1, h2, if_false]
    rw [sortPairs_eq_of_perm h]

/-- Claim C2, failing as stated at a concrete input.  The URLs
`https://h/p?a=1&a=2` and `https://h/p?a=2&a=1` contain the same duplicated
parameter name `a` with the values `1`, `2` appearing in a different
relative order (the two query lists are distinct, though permutations of
one another), so the claim predicts DIFFERENT fingerprints; but the default
key builder produces equal fingerprints, refuting the prediction: `sorted`
in `_sorted_query` orders the whole `(name, value)` tuples, so duplicate
names are NOT kept in their original relative order in the key. -/
theorem build_key_duplicate_param_order_collision :
    List.Perm [(("a", "1") : String × String), ("a", "2")] [("a", "2"), ("a", "1")] ∧
    [(("a", "1") : String × String), ("a", "2")] ≠ [("a", "2"), ("a", "1")] ∧
    ¬ (build_key (fun _ => "") "GET" ⟨"https", "h", "/p", [("a", "1"), ("a", "2")]⟩
          none none {} ≠
        build_key (fun _ => "") "GET" ⟨"https", "h", "/p", [("a", "2"), ("a", "1")]⟩
          none none {}) := by
  refine ⟨by decide, by decide, ?_⟩
  intro h
  exact h (by decide)

/-- Claim C2, amended: with the default key builder, any two URLs that agree
on scheme, host and path and whose query-parameter lists are permutations of
one another — including lists that duplicate a parameter name with values in
a different relative order — produce equal fingerprints, for every method,
body, header set, configuration and digest function: `_sorted_query` sorts
the `(name, value)` pairs by the full pair, so the key depends only on the
multiset of pairs. -/
theorem build_key_query_order_invariant (sha : List Nat → String) (method : String)
    (u1 u2 : UrlModel) (content : Option (List Nat))
    (headers : Option (List (String × String))) (cfg : CacheConfig)
    (hs : u1.scheme = u2.scheme) (hh : u1.host = u2.host) (hp : u1.path = u2.path)
    (hq : u1.query.Perm u2.query) :
    build_key sha method u1 content headers cfg = build_key sha method u2 content headers cfg := by
  unfold build_key
  rw [hs, hh, hp, sorted_query_eq_of_perm hq]

/-- Witness for `build_key_query_order_invariant` at the duplicated-name
input `a=1&a=2` versus `a=2&a=1`. -/
theorem build_key_query_order_invariant_witness :
    build_key (fun _ => "h") "GET" ⟨"https", "example.com", "/a", [("a", "1"), ("a", "2")]⟩
      none none {} =
    build_key (fun _ => "h") "GET" ⟨"https", "example.com", "/a", [("a", "2"), ("a", "1")]⟩
      none none {} :=
  build_key_query_order_invariant (fun _ => "h") "GET"
    ⟨"https", "example.com", "/a", [("a", "1"), ("a", "2")]⟩
    ⟨"https", "example.com", "/a", [("a", "2"), ("a", "1")]⟩
    none none {} rfl rfl rfl (by decide)

/-! ## C9 — configuration validation -/

/-- Claim C9, counterexample as stated: `circuit_breaker_timeout = -1`
violates the constraint `circuit_breaker_timeout >= 0` that section 6 of the
specification enumerates, yet `CacheConfig.__post_init__` accepts the
configuration — it never validates `circuit_breaker_timeout` (nor
`stale_while_revalidate_seconds` nor `max_stale_age_seconds`). -/
theorem validateConfig_accepts_negative_cb_timeout :
    validateConfig { circuit_breaker_timeout := -1 } = .ok () ∧
      ({ circuit_breaker_timeout := -1 } : CacheConfig).circuit_breaker_timeout < 0 := by
  constructor
  · rfl
  · decide

/-- Claim C9, amended: constructing a `CacheConfig` succeeds iff
`ttl_seconds >= 0`, `max_bytes >= 0`, `compression` is one of
gzip / lz4 / zstd / none, `min_ttl >= 0`, `max_ttl >= 0`,
`min_ttl <= max_ttl`, `circuit_breaker_threshold >= 1` and
`deduplication_timeout_seconds >= 1` — and raises otherwise.
`circuit_breaker_timeout`, `stale_while_revalidate_seconds` and
`max_stale_age_seconds` are NOT validated. -/
theorem validateConfig_ok_iff (cfg : CacheConfig) :
    validateConfig cfg = .ok () ↔
      (0 ≤ cfg.ttl_seconds ∧ 0 ≤ cfg.max_bytes ∧
       (cfg.compression = "gzip" ∨ cfg.compression = "lz4" ∨
        cfg.compression = "zstd" ∨ cfg.compression = "none") ∧
       0 ≤ cfg.min_ttl ∧ 0 ≤ cfg.max_ttl ∧ cfg.min_ttl ≤ cfg.max_ttl ∧
       1 ≤ cfg.circuit_breaker_threshold ∧ 1 ≤ cfg.deduplication_timeout_seconds) := by
  unfold validateConfig
  have hmem : COMPRESSORS_keys.contains cfg.compression = true ↔
      (cfg.compression = "gzip" ∨ cfg.compression = "lz4" ∨
       cfg.compression = "zstd" ∨ cfg.compression = "none") := by
    simp [COMPRESSORS_keys, List.contains]
  split_ifs with h1 h2 h3 h4 h5 h6 h7
  all_goals simp_all
  all_goals omega

/-! ## C4 — circuit breaker state machine -/

theorem cbReach_threshold {cb : CircuitBreaker} (h : CBReach cb) :
    cb.state ≠ .closed → cb.threshold ≤ cb.failures := by
  induction h with
  | init th tmo => intro hs; simp [CircuitBreaker.init] at hs
  | reset_step h ih => intro hs; simp [CircuitBreaker.reset] at hs
  | @call_step cb h now ok ih =>
    obtain ⟨th, tmo, f, lft, st⟩ := cb
    intro hs
    cases st <;> cases ok <;>
      simp only [CircuitBreaker.call] at hs ih ⊢ <;>
      split_ifs at hs ⊢ <;>
      simp_all <;> omega

/-- Claim C4: `CircuitBreaker.call` implements the three-state machine.  For
every reachable breaker: in CLOSED the operation runs (its result is passed
through) and each failure increments `failures` and records
`last_failure_time`, the breaker transitioning to OPEN exactly when
`failures` reaches `threshold`; in OPEN within the timeout, `call` returns
the distinguished `CircuitBreakerOpenError` without running the operation
and without changing state; in OPEN with `now - last_failure_time >
timeout` the operation runs as a HALF_OPEN probe: on success the breaker
closes and resets `failures` to 0, on failure it re-opens and updates
`last_failure_time`. -/
theorem circuit_breaker_state_machine {ε α : Type} (cb : CircuitBreaker)
    (hre : CBReach cb) (now : Int) (fn : Except ε α) :
    (cb.state = .closed →
      ((∀ a, fn = .ok a → cb.call now fn = (.ok a, cb)) ∧
       (∀ e, fn = .error e →
         (cb.call now fn).1 = .error (.fnErr e) ∧
         (cb.call now fn).2.failures = cb.failures + 1 ∧
         (cb.call now fn).2.last_failure_time = now ∧
         ((cb.call now fn).2.state = .isOpen ↔ cb.threshold ≤ cb.failures + 1) ∧
         (¬ cb.threshold ≤ cb.failures + 1 → (cb.call now fn).2.state = .closed)))) ∧
    (cb.state = .isOpen → ¬ (now - cb.last_failure_time > cb.timeout) →
      cb.call now fn = (.error .openErr, cb)) ∧
    (cb.state = .isOpen → now - cb.last_failure_time > cb.timeout →
      ((∀ a, fn = .ok a →
         (cb.call now fn).1 = .ok a ∧
         (cb.call now fn).2.state = .closed ∧
         (cb.call now fn).2.failures = 0) ∧
       (∀ e, fn = .error e →
         (cb.call now fn).1 = .error (.fnErr e) ∧
         (cb.call now fn).2.state = .isOpen ∧
         (cb.call now fn).2.failures = cb.failures + 1 ∧
         (cb.call now fn).2.last_failure_time = now))) := by
  have hinv := cbReach_threshold hre
  obtain ⟨th, tmo, f, lft, st⟩ := cb
  refine ⟨?_, ?_, ?_⟩
  · intro hst
    subst hst
    constructor
    · intro a ha
      subst ha
      simp [CircuitBreaker.call]
    · intro e he
      subst he
      simp only [CircuitBreaker.call]
      split_ifs <;> simp_all
  · intro hst htime
    subst hst
    simp [CircuitBreaker.call, htime]
  · intro hst htime
    subst hst
    have hf : th ≤ f := hinv (by simp)
    constructor
    · intro a ha
      subst ha
      simp [CircuitBreaker.call, htime]
    · intro e he
      subst he
      simp only [CircuitBreaker.call]
      split_ifs <;> simp_all
      all_goals omega

/-- Witness for `circuit_breaker_state_machine`: a fresh
`CircuitBreaker(2, 9)` in CLOSED, hit by a failing operation at `now = 5`,
re-raises the operation's error and counts one failure. -/
theorem circuit_breaker_state_machine_witness :
    ((CircuitBreaker.init 2 9).call (α := Nat) 5 (.error "x")).1 = .error (.fnErr "x") ∧
    ((CircuitBreaker.init 2 9).call (α := Nat) 5 (.error "x")).2.failures = 0 + 1 := by
  have h := circuit_breaker_state_machine (ε := String) (α := Nat) (CircuitBreaker.init 2 9)
    (CBReach.init 2 9) 5 (.error "x")
  have h1 := (h.1 rfl).2 "x" rfl
  exact ⟨h1.1, h1.2.1⟩

/-! ## C6 — serializer round-trip -/

/-- Claim C6: for every supported codec tag (gzip, lz4, zstd, none), given
the codec's contract that decompression inverts compression (the identity
pair for `none`; the documented behaviour of the external gzip / lz4 / zstd
libraries), `deserialize_response` applied to `serialize_response`'s blob
yields a response with the same status code, the same headers except the
stripped `content-encoding` and `content-length`, and the same body bytes,
together with the recorded creation timestamp. -/
theorem serialize_deserialize_roundtrip (ci : CodecImpls) (c : String)
    (_hc : c ∈ COMPRESSORS_keys)
    (hinv : ∀ b, (COMPRESSORS_getD ci c).2 ((COMPRESSORS_getD ci c).1 b) = b)
    (r : Response) (now : Int) (url hv reason : String) (enc : Option String) :
    deserialize_response ci (.good (serialize_response ci r c now url hv reason enc)) =
      .ok ({ status_code := r.status_code, headers := stripHeaders r.headers,
             content := r.content }, now) := by
  simp [deserialize_response, serialize_response, hinv]

/-- Witness for `serialize_deserialize_roundtrip` at the `none` codec with a
concrete response: `content-length` is stripped, the other headers, the
status, the body and the timestamp survive the round trip. -/
theorem serialize_deserialize_roundtrip_witness :
    deserialize_response idCodecs (.good (serialize_response idCodecs
        ⟨200, [("content-type", "text/html"), ("content-length", "5"), ("x-a", "b")], [1, 2, 3]⟩
        "none" 42 "https://e/x" "HTTP/1.1" "OK" none)) =
      .ok (⟨200, [("content-type", "text/html"), ("x-a", "b")], [1, 2, 3]⟩, 42) :=
  serialize_deserialize_roundtrip idCodecs "none" (by decide) (fun b => rfl)
    ⟨200, [("content-type", "text/html"), ("content-length", "5"), ("x-a", "b")], [1, 2, 3]⟩
    42 "https://e/x" "HTTP/1.1" "OK" none

/-! ## Facade lemmas -/

theorem is_cacheable_iff_spec (r : Response) (cfg : CacheConfig) :
    is_cacheable r cfg = true ↔ specCacheable r cfg := by
  unfold is_cacheable specCacheable
  split_ifs with h1 h2 h3 <;> simp_all

theorem get_from_cache_ok {cb : Option CircuitBreaker} {now : Int}
    (hnb : cbNotBlocking cb now) (v : Option Blob) :
    ∃ cb1, get_from_cache cb (.ok v) now = (.ok v, cb1) ∧ cbNotBlocking cb1 now := by
  cases cb with
  | none => exact ⟨none, rfl, by intro c hc; simp at hc⟩
  | some c =>
    cases hst : c.state with
    | closed =>
      refine ⟨some c, ?_, ?_⟩
      · simp [get_from_cache, CircuitBreaker.call, hst]
      · intro c2 hc2 hs2
        cases hc2
        rw [hst] at hs2
        simp at hs2
    | isOpen =>
      have ht : now - c.last_failure_time > c.timeout := hnb c rfl hst
      refine ⟨some { c with state := .closed, failures := 0 }, ?_, ?_⟩
      · simp [get_from_cache, CircuitBreaker.call, hst, ht]
      · intro c2 hc2 hs2
        cases hc2
        simp at hs2
    | halfOpen =>
      refine ⟨some { c with state := .closed, failures := 0 }, ?_, ?_⟩
      · simp [get_from_cache, CircuitBreaker.call, hst]
      · intro c2 hc2 hs2
        cases hc2
        simp at hs2

theorem get_from_cache_ok_none (cb : Option CircuitBreaker) (now : Int) :
    ∃ cb1, get_from_cache cb (.ok none) now = (.ok none, cb1) := by
  cases cb with
  | none => exact ⟨none, rfl⟩
  | some c =>
    by_cases hb : c.state = .isOpen ∧ ¬ (now - c.last_failure_time > c.timeout)
    · exact ⟨some c, by simp [get_from_cache, CircuitBreaker.call, hb]⟩
    · have hnb : cbNotBlocking (some c) now := by
        intro c2 hc2 hs2
        cases hc2
        by_contra hexp
        exact hb ⟨hs2, hexp⟩
      obtain ⟨cb1, h1, _⟩ := get_from_cache_ok hnb none
      exact ⟨cb1, h1⟩

theorem set_to_cache_performed {cb : Option CircuitBreaker} {now : Int}
    (hnb : cbNotBlocking cb now) : (set_to_cache cb now).1 = true := by
  cases cb with
  | none => rfl
  | some c =>
    cases hst : c.state with
    | closed => simp [set_to_cache, CircuitBreaker.call, hst]
    | isOpen =>
      have ht : now - c.last_failure_time > c.timeout := hnb c rfl hst
      simp [set_to_cache, CircuitBreaker.call, hst, ht]
    | halfOpen => simp [set_to_cache, CircuitBreaker.call, hst]

theorem fetch_response_ok (ci : CodecImpls) (cfg : CacheConfig) (r : Response)
    (sl : Option Blob) (now : Int) : fetch_response ci cfg (.ok r) sl now = .ok r := rfl

theorem requestMiss_fetched (ci : CodecImpls) (cfg : CacheConfig)
    (cb1 : Option CircuitBreaker) (key : String) (sl : Option Blob) (cw : Bool) (now : Int)
    (up : Except String Response) (adaptive : Response → Int)
    (meta : Response → String × String × String × Option String) (d : List String) :
    (requestMiss ci cfg cb1 key sl cw now up adaptive meta d).fetched = true := by
  rcases hf : fetch_response ci cfg up sl now with e | resp
  · simp [requestMiss, hf]
  · simp only [requestMiss, hf]
    split_ifs <;> rfl

theorem requestMiss_result (ci : CodecImpls) (cfg : CacheConfig)
    (cb1 : Option CircuitBreaker) (key : String) (sl : Option Blob) (cw : Bool) (now : Int)
    (up : Except String Response) (adaptive : Response → Int)
    (meta : Response → String × String × String × Option String) (d : List String) :
    (requestMiss ci cfg cb1 key sl cw now up adaptive meta d).result =
      (fetch_response ci cfg up sl now).mapError ReqErr.upstream := by
  rcases hf : fetch_response ci cfg up sl now with e | resp
  · simp [requestMiss, hf, Except.mapError]
  · simp only [requestMiss, hf, Except.mapError]
    split_ifs <;> rfl

theorem requestMiss_writes {ci : CodecImpls} {cfg : CacheConfig}
    {cb1 : Option CircuitBreaker} {key : String} {sl : Option Blob} {cw : Bool} {now : Int}
    {up : Except String Response} {adaptive : Response → Int}
    {meta : Response → String × String × String × Option String} {d : List String}
    {resp : Response} (hnb : cbNotBlocking cb1 now)
    (hf : fetch_response ci cfg up sl now = .ok resp) :
    (requestMiss ci cfg cb1 key sl cw now up adaptive meta d).writes =
      if cw = true ∧ is_cacheable resp cfg = true then
        [(key,
          serialize_response ci resp cfg.compression now (meta resp).1 (meta resp).2.1
            (meta resp).2.2.1 (meta resp).2.2.2,
          if cfg.respect_cache_headers then adaptive resp else cfg.ttl_seconds)]
      else [] := by
  have hp := set_to_cache_performed hnb
  by_cases h : cw = true ∧ is_cacheable resp cfg = true
  · simp [requestMiss, hf, hp, h]
  · simp [requestMiss, hf, h]

theorem requestMiss_writes_not_cacheable {ci : CodecImpls} {cfg : CacheConfig}
    {cb1 : Option CircuitBreaker} {key : String} {sl : Option Blob} {cw : Bool} {now : Int}
    {up : Except String Response} {adaptive : Response → Int}
    {meta : Response → String × String × String × Option String} {d : List String}
    {resp : Response} (hf : fetch_response ci cfg up sl now = .ok resp)
    (hnc : is_cacheable resp cfg = false) :
    (requestMiss ci cfg cb1 key sl cw now up adaptive meta d).writes = [] ∧
    (requestMiss ci cfg cb1 key sl cw now up adaptive meta d).result = .ok resp := by
  simp [requestMiss, hf, hnc]

theorem corruptRead_ok_none (ci : CodecImpls) (cb : Option CircuitBreaker) (now : Int) :
    corruptRead ci cb (.ok none) now = false := by
  obtain ⟨cb1, h⟩ := get_from_cache_ok_none cb now
  simp [corruptRead, h]

theorem requestCore_ok_none (ci : CodecImpls) (cfg : CacheConfig)
    (cb0 : Option CircuitBreaker) (key : String) (sl : Option Blob) (cr cw fr : Bool)
    (now : Int) (up : Except String Response) (adaptive : Response → Int)
    (meta : Response → String × String × String × Option String) :
    ∃ cb1, (get_from_cache cb0 (.ok none) now = (.ok none, cb1) ∨ cb1 = cb0) ∧
      requestCore ci cfg cb0 key (.ok none) sl cr cw fr now up adaptive meta =
        requestMiss ci cfg cb1 key sl cw now up adaptive meta [] ∧
      (cbNotBlocking cb0 now → cbNotBlocking cb1 now) := by
  by_cases hc : cr = true ∧ ¬ (fr = true)
  · obtain ⟨hcr, hfr⟩ := hc
    have hfr2 : fr = false := by simpa using hfr
    subst hcr
    subst hfr2
    obtain ⟨cb1, hgf⟩ := get_from_cache_ok_none cb0 now
    refine ⟨cb1, Or.inl hgf, ?_, ?_⟩
    · simp [requestCore, hgf]
    · intro hnb
      obtain ⟨cb1', hgf', hnb'⟩ := get_from_cache_ok hnb (none : Option Blob)
      rw [hgf] at hgf'
      cases hgf'
      exact hnb'
  · refine ⟨cb0, Or.inr rfl, ?_, fun h => h⟩
    simp only [requestCore]
    rw [if_neg hc]

theorem storeGet_nil (k : String) : storeGet [] k = none := rfl

theorem facadeState_eta {s : FacadeState} (h : s.store = []) : s = ⟨[], s.cb⟩ := by
  cases s
  simp_all

theorem status_error_not_cacheable {cfg : CacheConfig} {r : Response}
    (hcodes : cfg.cacheable_status_codes = none) (hs : 400 ≤ r.status_code) :
    is_cacheable r cfg = false := by
  have hsa : statusAllowed cfg r.status_code = false := by
    simp only [statusAllowed, hcodes]
    simp only [Bool.and_eq_false_iff, decide_eq_false_iff_not, not_le, not_lt]
    omega
  unfold is_cacheable
  simp [hsa]

theorem facadeRequest_not_cacheable {sha : List Nat → String} {ci : CodecImpls}
    {cfg : CacheConfig} {cb0 : Option CircuitBreaker} {method : String} {u : UrlModel}
    {content : Option (List Nat)} {headers : Option (List (String × String))} {now : Int}
    {r : Response} {adaptive : Response → Int}
    {meta : Response → String × String × String × Option String}
    (hnc : is_cacheable r cfg = false) :
    (facadeRequest sha ci cfg ⟨[], cb0⟩ method u content headers true true false now
        (.ok r) adaptive meta).1.fetched = true ∧
    (facadeRequest sha ci cfg ⟨[], cb0⟩ method u content headers true true false now
        (.ok r) adaptive meta).1.result = .ok r ∧
    (facadeRequest sha ci cfg ⟨[], cb0⟩ method u content headers true true false now
        (.ok r) adaptive meta).2.store = [] := by
  rcases hkb : cfg.key_builder with _ | kb <;>
  · simp [facadeRequest, hkb, storeGet_nil, corruptRead_ok_none]
    obtain ⟨cb1, _, heq, _⟩ := requestCore_ok_none ci cfg cb0 _ none true true false now
      (.ok r) adaptive meta
    rw [heq]
    obtain ⟨hw, hres⟩ := @requestMiss_writes_not_cacheable ci cfg cb1 _ _ true _ _
      adaptive meta [] _ (fetch_response_ok ci cfg r none now) hnc
    refine ⟨by apply requestMiss_fetched, hres, by simp [hw]⟩

/-- Claim C1: after an upstream fetch (the read phase found nothing and the
store operation is not vetoed by an open circuit breaker), the facade writes
the response to the cache iff `cache_write` is in effect and the
specification's cacheability predicate holds of the response and the
configuration: status in `cacheable_status_codes` (default 200..299), status
not 204, declared content-type absent or beginning (case-insensitively) with
`text/`, `application/json` or `application/xhtml`, and body length at most
`max_bytes`.  In particular, under the default status policy a 4xx/5xx
response is never written, so two sequential identical requests with a
4xx/5xx upstream both reach the upstream (two fetches). -/
theorem request_stores_iff_cacheable :
    (∀ (ci : CodecImpls) (cfg : CacheConfig) (cb0 : Option CircuitBreaker) (key : String)
       (sl : Option Blob) (cr cw fr : Bool) (now : Int) (r : Response)
       (adaptive : Response → Int)
       (meta : Response → String × String × String × Option String),
       cbNotBlocking cb0 now →
       ((requestCore ci cfg cb0 key (.ok none) sl cr cw fr now (.ok r) adaptive meta).writes ≠ []
         ↔ (cw = true ∧ specCacheable r cfg))) ∧
    (∀ (sha : List Nat → String) (ci : CodecImpls) (cfg : CacheConfig)
       (cb0 : Option CircuitBreaker) (method : String) (u : UrlModel)
       (content : Option (List Nat)) (headers : Option (List (String × String)))
       (now1 now2 : Int) (r : Response) (adaptive : Response → Int)
       (meta : Response → String × String × String × Option String),
       cfg.cacheable_status_codes = none → 400 ≤ r.status_code →
       ((facadeRequest sha ci cfg ⟨[], cb0⟩ method u content headers true true false now1
           (.ok r) adaptive meta).1.fetched = true ∧
        (facadeRequest sha ci cfg
           (facadeRequest sha ci cfg ⟨[], cb0⟩ method u content headers true true false now1
             (.ok r) adaptive meta).2
           method u content headers true true false now2
           (.ok r) adaptive meta).1.fetched = true)) := by
  constructor
  · intro ci cfg cb0 key sl cr cw fr now r adaptive meta hnb
    obtain ⟨cb1, _, heq, hnbp⟩ :=
      requestCore_ok_none ci cfg cb0 key sl cr cw fr now (.ok r) adaptive meta
    rw [heq, requestMiss_writes (hnbp hnb) (fetch_response_ok ci cfg r sl now)]
    have hiff := is_cacheable_iff_spec r cfg
    by_cases hcc : cw = true ∧ is_cacheable r cfg = true
    · simp only [hcc, if_true]
      simp [hcc.1, hiff.mp hcc.2]
    · simp only [hcc, if_false]
      constructor
      · intro h
        exact absurd rfl h
      · rintro ⟨h1, h2⟩
        exact (hcc ⟨h1, hiff.mpr h2⟩).elim
  · intro sha ci cfg cb0 method u content headers now1 now2 r adaptive meta hcodes hs
    have hnc : is_cacheable r cfg = false := status_error_not_cacheable hcodes hs
    obtain ⟨hf1, _, hst1⟩ :=
      @facadeRequest_not_cacheable sha ci cfg cb0 method u content headers now1 r
        adaptive meta hnc
    refine ⟨hf1, ?_⟩
    rw [facadeState_eta hst1]
    exact (@facadeRequest_not_cacheable sha ci cfg _ method u content headers now2 r
      adaptive meta hnc).1

/-- Witness for `request_stores_iff_cacheable`: with no circuit breaker, a
200 `text/html` response of two bytes under the default configuration is
written back (the left-to-right instance of the iff is inhabited), shown at
a concrete input. -/
theorem request_stores_iff_cacheable_witness :
    (requestCore idCodecs {} none "k" (.ok none) none true true false 0
        (.ok ⟨200, [("content-type", "text/html")], [1, 2]⟩) (fun _ => 0)
        (fun _ => ("", "", "", none))).writes ≠ []
      ↔ (true = true ∧ specCacheable ⟨200, [("content-type", "text/html")], [1, 2]⟩ {}) :=
  request_stores_iff_cacheable.1 idCodecs {} none "k" none true true false 0
    ⟨200, [("content-type", "text/html")], [1, 2]⟩ (fun _ => 0) (fun _ => ("", "", "", none))
    (by intro c hc; simp at hc)

/-! ## C5 — fresh / stale-while-revalidate / miss classification -/

/-- Claim C5: on a cache read that yields a deserializable entry of age
`a = now - cached_at`: if `a <= ttl` the cached response is returned as a
hit (no upstream fetch, no refresh task); if `swr > 0` and
`ttl < a <= ttl + swr` the stale cached response is returned immediately
and exactly one background refresh thread is started; in every other case
(including `swr = 0` with `a > ttl`) the call proceeds as a miss to the
upstream fetch. -/
theorem swr_read_classification (ci : CodecImpls) (cfg : CacheConfig)
    (cb0 cb1 : Option CircuitBreaker) (key : String) (b : Blob) (sl : Option Blob)
    (cw : Bool) (now : Int) (up : Except String Response) (adaptive : Response → Int)
    (meta : Response → String × String × String × Option String)
    (resp : Response) (cached_at : Int)
    (hread : get_from_cache cb0 (.ok (some b)) now = (.ok (some b), cb1))
    (hdes : deserialize_response ci b = .ok (resp, cached_at)) :
    ((now - cached_at ≤ cfg.ttl_seconds →
      requestCore ci cfg cb0 key (.ok (some b)) sl true cw false now up adaptive meta =
        { result := .ok resp, fetched := false, refreshes := 0, writes := [],
          deleted := [], cb := cb1 }) ∧
     (cfg.stale_while_revalidate_seconds > 0 ∧ cfg.ttl_seconds < now - cached_at ∧
        now - cached_at ≤ cfg.ttl_seconds + cfg.stale_while_revalidate_seconds →
      requestCore ci cfg cb0 key (.ok (some b)) sl true cw false now up adaptive meta =
        { result := .ok resp, fetched := false, refreshes := 1, writes := [],
          deleted := [], cb := cb1 }) ∧
     (¬ (now - cached_at ≤ cfg.ttl_seconds) ∧
      ¬ (cfg.stale_while_revalidate_seconds > 0 ∧
         now - cached_at ≤ cfg.ttl_seconds + cfg.stale_while_revalidate_seconds) →
      requestCore ci cfg cb0 key (.ok (some b)) sl true cw false now up adaptive meta =
        requestMiss ci cfg cb1 key sl cw now up adaptive meta [] ∧
      (requestCore ci cfg cb0 key (.ok (some b)) sl true cw false now up adaptive
          meta).fetched = true)) := by
  refine ⟨?_, ?_, ?_⟩ <;> intro h
  · simp [requestCore, hread, hdes, h]
  · have h1 : ¬ (now - cached_at ≤ cfg.ttl_seconds) := by omega
    simp [requestCore, hread, hdes, h1, h.1, h.2.2]
  · have heq : requestCore ci cfg cb0 key (.ok (some b)) sl true cw false now up adaptive
        meta = requestMiss ci cfg cb1 key sl cw now up adaptive meta [] := by
      rcases Classical.em (cfg.stale_while_revalidate_seconds > 0) with hswr | hswr
      · have h3 : ¬ (now - cached_at ≤ cfg.ttl_seconds + cfg.stale_while_revalidate_seconds) :=
          fun hc => h.2 ⟨hswr, hc⟩
        simp [requestCore, hread, hdes, h.1, h3]
      · simp [requestCore, hread, hdes, h.1, hswr]
    exact ⟨heq, by rw [heq]; exact requestMiss_fetched ci cfg cb1 key sl cw now up adaptive meta []⟩

/-- Witness for `swr_read_classification`: a fresh entry (age 10 against the
default TTL of 86400) is returned as a hit without fetching and without a
background refresh. -/
theorem swr_read_classification_witness :
    requestCore idCodecs {} none "k" (.ok (some (.good samplePayload))) none true true false
        10 (.ok ⟨200, [], []⟩) (fun _ => 0) (fun _ => ("", "", "", none)) =
      { result := .ok ⟨200, [], [7, 7]⟩, fetched := false, refreshes := 0, writes := [],
        deleted := [], cb := none } :=
  (swr_read_classification idCodecs {} none none "k" (.good samplePayload) none true 10
    (.ok ⟨200, [], []⟩) (fun _ => 0) (fun _ => ("", "", "", none)) ⟨200, [], [7, 7]⟩ 0
    rfl rfl).1 (by decide)

/-! ## C8 — serve-stale-on-error -/

/-- Claim C8: when the upstream fetch raises and `serve_stale_on_error` is
enabled, `_fetch_response` re-reads the backend ignoring freshness: an
existing entry that deserializes with age at most `max_stale_age_seconds` is
returned; in every other case (no entry, corrupt entry, or too old) the
original upstream exception propagates unchanged — and through the facade's
miss path the call's result is exactly `_fetch_response`'s outcome, with an
upstream exception surfaced as such. -/
theorem serve_stale_on_error_behaviour (ci : CodecImpls) (cfg : CacheConfig) (e : String)
    (sl : Option Blob) (now : Int) (hs : cfg.serve_stale_on_error = true) :
    (∀ b resp cached_at, sl = some b → deserialize_response ci b = .ok (resp, cached_at) →
       now - cached_at ≤ cfg.max_stale_age_seconds →
       fetch_response ci cfg (.error e) sl now = .ok resp) ∧
    (∀ b resp cached_at, sl = some b → deserialize_response ci b = .ok (resp, cached_at) →
       ¬ (now - cached_at ≤ cfg.max_stale_age_seconds) →
       fetch_response ci cfg (.error e) sl now = .error e) ∧
    (∀ b, sl = some b → deserialize_response ci b = .error () →
       fetch_response ci cfg (.error e) sl now = .error e) ∧
    (sl = none → fetch_response ci cfg (.error e) sl now = .error e) ∧
    (∀ (cb1 : Option CircuitBreaker) (key : String) (cw : Bool) (adaptive : Response → Int)
       (meta : Response → String × String × String × Option String) (d : List String),
       (requestMiss ci cfg cb1 key sl cw now (.error e) adaptive meta d).result =
         (fetch_response ci cfg (.error e) sl now).mapError ReqErr.upstream) := by
  refine ⟨?_, ?_, ?_, ?_, ?_⟩
  · intro b resp cached_at hb hdes hage
    subst hb
    simp [fetch_response, hs, hdes, hage]
  · intro b resp cached_at hb hdes hage
    subst hb
    simp [fetch_response, hs, hdes, hage]
  · intro b hb hdes
    subst hb
    simp [fetch_response, hs, hdes]
  · intro hb
    subst hb
    simp [fetch_response, hs]
  · intro cb1 key cw adaptive meta d
    exact requestMiss_result ci cfg cb1 key sl cw now (.error e) adaptive meta d

/-- Witness for `serve_stale_on_error_behaviour`: a young stale entry (age 5
against `max_stale_age_seconds = 86400`) is served when the upstream raises. -/
theorem serve_stale_on_error_behaviour_witness :
    fetch_response idCodecs { serve_stale_on_error := true } (.error "boom")
        (some (.good samplePayload)) 5 = .ok ⟨200, [], [7, 7]⟩ :=
  (serve_stale_on_error_behaviour idCodecs { serve_stale_on_error := true } "boom"
    (some (.good samplePayload)) 5 rfl).1 (.good samplePayload) ⟨200, [], [7, 7]⟩ 0
    rfl rfl (by decide)

/-! ## C3 — errors on the cache-read path -/

theorem get_from_cache_err {cb : Option CircuitBreaker} {now : Int}
    (hnb : cbNotBlocking cb now) (e : String) :
    ∃ cb1, get_from_cache cb (.error e) now = (.error e, cb1) := by
  cases cb with
  | none => exact ⟨none, rfl⟩
  | some c =>
    have hb : ¬ (c.state = .isOpen ∧ ¬ (now - c.last_failure_time > c.timeout)) := by
      rintro ⟨hs, ht⟩
      exact ht (hnb c rfl hs)
    rcases hcall : c.call (ε := String) (α := Option Blob) now (.error e) with ⟨res, c2⟩
    have h1 : res = .error (.fnErr e) := by
      have h2 : (c.call (ε := String) (α := Option Blob) now (.error e)).1 =
          .error (.fnErr e) := by
        unfold CircuitBreaker.call
        rw [if_neg hb]
      rw [hcall] at h2
      exact h2
    subst h1
    exact ⟨some c2, by simp [get_from_cache, hcall]⟩

/-- Claim C3, counterexample as stated: with the default configuration's
freshly constructed (CLOSED) circuit breaker, a `backend.get` that raises
`"boom"` during the read phase escapes `CachedSgRequests.request` as a
cache-layer exception — it is neither treated as a miss nor converted into
an upstream error, refuting "never surfaced". -/
theorem backend_read_error_surfaces :
    (requestCore idCodecs {} (some (CircuitBreaker.init 5 30)) "k" (.error "boom") none
        true true false 0 (.ok ⟨200, [], []⟩) (fun _ => 0)
        (fun _ => ("", "", "", none))).result = .error (.cacheLayer "boom") := rfl

/-- Claim C3, amended: during the facade's cache-read path only the circuit
breaker's own `CircuitBreakerOpenError` is swallowed and turned into a miss;
an exception raised by `backend.get` itself propagates to the caller as a
cache-layer exception whenever the breaker is absent or lets the call
through (it is counted as a breaker failure), and once the breaker is OPEN
within its timeout the read is fail-fast and the request proceeds as a miss. -/
theorem cache_read_error_policy :
    (∀ (ci : CodecImpls) (cfg : CacheConfig) (cb0 : Option CircuitBreaker) (key : String)
       (sl : Option Blob) (cw : Bool) (now : Int) (up : Except String Response)
       (adaptive : Response → Int)
       (meta : Response → String × String × String × Option String) (e : String),
       cbNotBlocking cb0 now →
       (requestCore ci cfg cb0 key (.error e) sl true cw false now up adaptive meta).result =
         .error (.cacheLayer e)) ∧
    (∀ (ci : CodecImpls) (cfg : CacheConfig) (c : CircuitBreaker) (key : String)
       (gr : Except String (Option Blob)) (sl : Option Blob) (cw : Bool) (now : Int)
       (up : Except String Response) (adaptive : Response → Int)
       (meta : Response → String × String × String × Option String),
       c.state = .isOpen → ¬ (now - c.last_failure_time > c.timeout) →
       requestCore ci cfg (some c) key gr sl true cw false now up adaptive meta =
         requestMiss ci cfg (some c) key sl cw now up adaptive meta []) := by
  constructor
  · intro ci cfg cb0 key sl cw now up adaptive meta e hnb
    obtain ⟨cb1, hgf⟩ := get_from_cache_err hnb e
    simp [requestCore, hgf]
  · intro ci cfg c key gr sl cw now up adaptive meta hst ht
    have hgf : get_from_cache (some c) gr now = (.ok none, some c) := by
      simp [get_from_cache, CircuitBreaker.call, hst, ht]
    simp [requestCore, hgf]

/-- Witness for `cache_read_error_policy`: with no breaker configured, a
raising `backend.get` surfaces directly. -/
theorem cache_read_error_policy_witness :
    (requestCore idCodecs {} none "k" (.error "down") none true true false 0
        (.ok ⟨200, [], []⟩) (fun _ => 0) (fun _ => ("", "", "", none))).result =
      .error (.cacheLayer "down") :=
  cache_read_error_policy.1 idCodecs {} none "k" none true 0 (.ok ⟨200, [], []⟩)
    (fun _ => 0) (fun _ => ("", "", "", none)) "down" (by intro c hc; simp at hc)

/-! ## C10 — serve-stale lookup ignores the configured key builder -/

/-- Claim C10: when a custom `key_builder` is configured,
`CachedSgRequests.request` stores and reads under the `key_builder` key,
but `_fetch_response`'s serve-stale-on-error lookup rebuilds its key with
the built-in `_build_key` (cache.py line 425).  Hence for any request whose
`key_builder` key differs from the default key, when the only entry for the
request sits under the `key_builder` key (expired for the read path but
young enough for `max_stale_age_seconds`), an upstream failure propagates
to the caller even though that sufficiently young stale entry exists. -/
theorem key_builder_stale_lookup_uses_default_key
    (sha : List Nat → String) (ci : CodecImpls) (cfg : CacheConfig)
    (kb : String → UrlModel → Option (List Nat) → Option (List (String × String)) → String)
    (method : String) (u : UrlModel) (content : Option (List Nat))
    (headers : Option (List (String × String))) (now : Int) (e : String)
    (adaptive : Response → Int)
    (meta : Response → String × String × String × Option String)
    (store : List (String × Blob)) (p : SerializedPayload) (resp : Response)
    (cached_at : Int)
    (hkb : cfg.key_builder = some kb)
    (hsse : cfg.serve_stale_on_error = true)
    (_hneq : kb method u content headers ≠ build_key sha method u content headers cfg)
    (hdefault_missing : storeGet store (build_key sha method u content headers cfg) = none)
    (hentry : storeGet store (kb method u content headers) = some (.good p))
    (hdes : deserialize_response ci (.good p) = .ok (resp, cached_at))
    (_hyoung : now - cached_at ≤ cfg.max_stale_age_seconds)
    (hexpired : cfg.ttl_seconds + cfg.stale_while_revalidate_seconds < now - cached_at)
    (hswr : 0 ≤ cfg.stale_while_revalidate_seconds) :
    (facadeRequest sha ci cfg ⟨store, none⟩ method u content headers true true false now
        (.error e) adaptive meta).1.result = .error (.upstream e) := by
  have hfresh : ¬ (now - cached_at ≤ cfg.ttl_seconds) := by omega
  have hstale : ¬ (cfg.stale_while_revalidate_seconds > 0 ∧
      now - cached_at ≤ cfg.ttl_seconds + cfg.stale_while_revalidate_seconds) := by
    rintro ⟨h1, h2⟩
    omega
  have hread : get_from_cache (none : Option CircuitBreaker)
      (.ok (some (Blob.good p))) now = (.ok (some (Blob.good p)), none) := rfl
  have hclass := (swr_read_classification ci cfg none none
    (kb method u content headers) (.good p)
    (storeGet store (build_key sha method u content headers cfg)) true now (.error e)
    adaptive meta resp cached_at hread hdes).2.2 ⟨hfresh, hstale⟩
  have hcore := hclass.1
  rw [hdefault_missing] at hcore
  simp only [facadeRequest, hkb, hentry]
  have hcorrupt : corruptRead ci none (.ok (some (Blob.good p))) now = false := by
    simp [corruptRead, get_from_cache, hdes]
  rw [if_neg (show ¬ (True ∧ ¬ false = true ∧
      corruptRead ci none (.ok (some (Blob.good p))) now = true) from by simp [hcorrupt])]
  rw [hdefault_missing, hcore, requestMiss_result]
  simp [fetch_response, hsse, Except.mapError]

/-- Witness for `key_builder_stale_lookup_uses_default_key`: with
`key_builder` constantly `"custom"`, `ttl = 0`, serve-stale enabled, a young
entry stored under `"custom"` only, and a failing upstream, the facade
propagates the upstream error. -/
theorem key_builder_stale_lookup_uses_default_key_witness :
    (facadeRequest (fun _ => "") idCodecs
        { ttl_seconds := 0, serve_stale_on_error := true,
          key_builder := some (fun _ _ _ _ => "custom") }
        ⟨[("custom", Blob.good samplePayload)], none⟩ "GET" ⟨"https", "h", "/p", []⟩
        none none true true false 1 (.error "boom") (fun _ => 0)
        (fun _ => ("", "", "", none))).1.result = .error (.upstream "boom") :=
  key_builder_stale_lookup_uses_default_key (fun _ => "") idCodecs
    { ttl_seconds := 0, serve_stale_on_error := true,
      key_builder := some (fun _ _ _ _ => "custom") }
    (fun _ _ _ _ => "custom") "GET" ⟨"https", "h", "/p", []⟩ none none 1 "boom"
    (fun _ => 0) (fun _ => ("", "", "", none))
    [("custom", Blob.good samplePayload)] samplePayload ⟨200, [], [7, 7]⟩ 0
    rfl rfl (by decide) (by decide) rfl rfl (by decide) (by decide) (by decide)

/-! ## C7 — deduplicator single-flight -/

theorem getElem?_some_lt {α : Type} {l : List α} {i : Nat} {x : α}
    (h : l[i]? = some x) : i < l.length := by
  by_contra hc
  rw [List.getElem?_eq_none (by omega)] at h
  cases h

theorem dedup_invariant {V E : Type} {n : Nat} {s : DState V E}
    (h : DReach (dedupInit V E n) s) :
    (∀ (i g : Nat), s.callers[i]? = some (CPhase.fetching g) → s.inFlight = some g) ∧
    (∀ (i j gi gj : Nat), s.callers[i]? = some (CPhase.fetching gi) →
      s.callers[j]? = some (CPhase.fetching gj) → i = j) ∧
    (∀ v, s.results = some v →
      ∃ i : Nat, s.callers[i]? = some ((CPhase.done (COutcome.returned v)) : CPhase V E)) ∧
    (∀ e, s.errors = some (some e) →
      ∃ i : Nat, s.callers[i]? = some ((CPhase.done (COutcome.raised e)) : CPhase V E)) := by
  induction h with
  | refl =>
    refine ⟨?_, ?_, ?_, ?_⟩
    · intro i g hi
      simp only [dedupInit, List.getElem?_replicate] at hi
      split_ifs at hi
      simp_all
    · intro i j gi gj hi hj
      simp only [dedupInit, List.getElem?_replicate] at hi
      split_ifs at hi
      simp_all
    · intro v hv
      simp [dedupInit] at hv
    · intro e he'
      simp [dedupInit] at he'
  | tail hsteps hstep ih =>
    obtain ⟨ha, he, hc, hd⟩ := ih
    cases hstep with
    | arrive_fetcher i hc0 hf =>
      refine ⟨?_, ?_, ?_, ?_⟩
      · intro j g hj
        by_cases hij : i = j
        · subst hij
          rw [List.getElem?_set_self (getElem?_some_lt hc0)] at hj
          simp only [Option.some.injEq, CPhase.fetching.injEq] at hj
          simp [hj]
        · rw [List.getElem?_set_ne hij] at hj
          have h2 := ha j g hj
          rw [hf] at h2
          cases h2
      · intro j k gj gk hj hk
        by_cases hij : i = j
        · by_cases hik : i = k
          · omega
          · rw [List.getElem?_set_ne hik] at hk
            have h2 := ha k gk hk
            rw [hf] at h2
            cases h2
        · rw [List.getElem?_set_ne hij] at hj
          have h2 := ha j gj hj
          rw [hf] at h2
          cases h2
      · intro v hv
        obtain ⟨j, hj⟩ := hc v hv
        have hij : i ≠ j := by
          intro hij
          rw [hij] at hc0
          rw [hc0] at hj
          cases hj
        exact ⟨j, by rw [List.getElem?_set_ne hij]; exact hj⟩
      · intro e he'
        obtain ⟨j, hj⟩ := hd e he'
        have hij : i ≠ j := by
          intro hij
          rw [hij] at hc0
          rw [hc0] at hj
          cases hj
        exact ⟨j, by rw [List.getElem?_set_ne hij]; exact hj⟩
    | arrive_waiter i g0 hc0 hf =>
      refine ⟨?_, ?_, ?_, ?_⟩
      · intro j g hj
        by_cases hij : i = j
        · subst hij
          rw [List.getElem?_set_self (getElem?_some_lt hc0)] at hj
          simp at hj
        · rw [List.getElem?_set_ne hij] at hj
          exact ha j g hj
      · intro j k gj gk hj hk
        by_cases hij : i = j
        · subst hij
          rw [List.getElem?_set_self (getElem?_some_lt hc0)] at hj
          simp at hj
        · by_cases hik : i = k
          · subst hik
            rw [List.getElem?_set_self (getElem?_some_lt hc0)] at hk
            simp at hk
          · rw [List.getElem?_set_ne hij] at hj
            rw [List.getElem?_set_ne hik] at hk
            exact he j k gj gk hj hk
      · intro v hv
        obtain ⟨j, hj⟩ := hc v hv
        have hij : i ≠ j := by
          intro hij
          rw [hij] at hc0
          rw [hc0] at hj
          cases hj
        exact ⟨j, by rw [List.getElem?_set_ne hij]; exact hj⟩
      · intro e he'
        obtain ⟨j, hj⟩ := hd e he'
        have hij : i ≠ j := by
          intro hij
          rw [hij] at hc0
          rw [hc0] at hj
          cases hj
        exact ⟨j, by rw [List.getElem?_set_ne hij]; exact hj⟩
    | fetch_ok i g0 v0 hc0 =>
      refine ⟨?_, ?_, ?_, ?_⟩
      · intro j g hj
        by_cases hij : i = j
        · subst hij
          rw [List.getElem?_set_self (getElem?_some_lt hc0)] at hj
          simp at hj
        · rw [List.getElem?_set_ne hij] at hj
          exact absurd (he i j g0 g hc0 hj) hij
      · intro j k gj gk hj hk
        by_cases hij : i = j
        · subst hij
          rw [List.getElem?_set_self (getElem?_some_lt hc0)] at hj
          simp at hj
        · rw [List.getElem?_set_ne hij] at hj
          exact absurd (he i j g0 gj hc0 hj) hij
      · intro v hv
        simp only [Option.some.injEq] at hv
        subst hv
        exact ⟨i, by rw [List.getElem?_set_self (getElem?_some_lt hc0)]⟩
      · intro e he'
        simp at he'
    | fetch_err i g0 e0 hc0 =>
      refine ⟨?_, ?_, ?_, ?_⟩
      · intro j g hj
        by_cases hij : i = j
        · subst hij
          rw [List.getElem?_set_self (getElem?_some_lt hc0)] at hj
          simp at hj
        · rw [List.getElem?_set_ne hij] at hj
          exact absurd (he i j g0 g hc0 hj) hij
      · intro j k gj gk hj hk
        by_cases hij : i = j
        · subst hij
          rw [List.getElem?_set_self (getElem?_some_lt hc0)] at hj
          simp at hj
        · rw [List.getElem?_set_ne hij] at hj
          exact absurd (he i j g0 gj hc0 hj) hij
      · intro v hv
        obtain ⟨j, hj⟩ := hc v hv
        have hij : i ≠ j := by
          intro hij
          rw [hij] at hc0
          rw [hc0] at hj
          cases hj
        exact ⟨j, by rw [List.getElem?_set_ne hij]; exact hj⟩
      · intro e he'
        simp only [Option.some.injEq] at he'
        subst he'
        exact ⟨i, by rw [List.getElem?_set_self (getElem?_some_lt hc0)]⟩
    | wake i g0 hc0 =>
      refine ⟨?_, ?_, ?_, ?_⟩
      · intro j g hj
        by_cases hij : i = j
        · subst hij
          rw [List.getElem?_set_self (getElem?_some_lt hc0)] at hj
          simp at hj
        · rw [List.getElem?_set_ne hij] at hj
          exact ha j g hj
      · intro j k gj gk hj hk
        by_cases hij : i = j
        · subst hij
          rw [List.getElem?_set_self (getElem?_some_lt hc0)] at hj
          simp at hj
        · by_cases hik : i = k
          · subst hik
            rw [List.getElem?_set_self (getElem?_some_lt hc0)] at hk
            simp at hk
          · rw [List.getElem?_set_ne hij] at hj
            rw [List.getElem?_set_ne hik] at hk
            exact he j k gj gk hj hk
      · intro v hv
        obtain ⟨j, hj⟩ := hc v hv
        have hij : i ≠ j := by
          intro hij
          rw [hij] at hc0
          rw [hc0] at hj
          cases hj
        exact ⟨j, by rw [List.getElem?_set_ne hij]; exact hj⟩
      · intro e he'
        obtain ⟨j, hj⟩ := hd e he'
        have hij : i ≠ j := by
          intro hij
          rw [hij] at hc0
          rw [hc0] at hj
          cases hj
        exact ⟨j, by rw [List.getElem?_set_ne hij]; exact hj⟩
    | cleanup g0 hg =>
      refine ⟨?_, ?_, ?_, ?_⟩
      · intro j g hj
        exact ha j g hj
      · intro j k gj gk hj hk
        exact he j k gj gk hj hk
      · intro v hv
        cases hv
      · intro e he'
        cases he'

theorem dedupStep01 : DStep dedupS0 dedupS1 :=
  DStep.arrive_fetcher dedupS0 0 rfl rfl

theorem dedupStep12 : DStep dedupS1 dedupS2 :=
  DStep.arrive_waiter dedupS1 1 0 rfl rfl

theorem dedupStep23 : DStep dedupS2 dedupS3 :=
  DStep.fetch_ok dedupS2 0 0 1 rfl

theorem dedupStep34 : DStep dedupS3 dedupS4 :=
  DStep.arrive_fetcher dedupS3 2 rfl rfl

theorem dedupStep45 : DStep dedupS4 dedupS5 :=
  DStep.fetch_ok dedupS4 2 1 2 rfl

theorem dedupStep56 : DStep dedupS5 dedupS6 :=
  DStep.wake dedupS5 1 0 rfl

theorem dedupReach02 : DReach dedupS0 dedupS2 :=
  Relation.ReflTransGen.tail (Relation.ReflTransGen.tail Relation.ReflTransGen.refl
    dedupStep01) dedupStep12

theorem dedupReach26 : DReach dedupS2 dedupS6 :=
  Relation.ReflTransGen.tail (Relation.ReflTransGen.tail (Relation.ReflTransGen.tail
    (Relation.ReflTransGen.tail Relation.ReflTransGen.refl dedupStep23) dedupStep34)
    dedupStep45) dedupStep56

/-- Claim C7, counterexample to "every concurrently arriving caller for k
receives the result (or the error) of that same fetch": an execution of
`get_or_fetch` faithful to `deduplication.py` in which caller 1 arrives
while caller 0's fetch (generation 0) is in flight and waits on its event;
caller 0's fetch completes with value 1; before caller 1 re-acquires the
lock, caller 2 starts and completes a second fetch (generation 1) with
value 2, overwriting `_results[key]`; caller 1 then reads the tables and
returns 2 — a value from a fetch it never waited on, different from the
result of the fetch that was in flight when it arrived. -/
theorem dedup_waiter_receives_other_fetch_result :
    DReach (dedupInit Nat Unit 3) dedupS2 ∧
    dedupS2.callers[0]? = some (CPhase.fetching 0) ∧
    dedupS2.callers[1]? = some (CPhase.waiting 0) ∧
    DReach dedupS2 dedupS6 ∧
    dedupS6.callers[0]? = some (CPhase.done (COutcome.returned 1)) ∧
    dedupS6.callers[1]? = some (CPhase.done (COutcome.returned 2)) :=
  ⟨dedupReach02, rfl, rfl, dedupReach26, rfl, rfl⟩

theorem dedup_wake_outcome {V E : Type} {s s' : DState V E} {i g : Nat} {o : COutcome V E}
    (hstep : DStep s s') (hcw : s.callers[i]? = some (CPhase.waiting g))
    (hdone : s'.callers[i]? = some (CPhase.done o)) :
    o = wakeOutcome s.errors s.results := by
  cases hstep with
  | arrive_fetcher j hcj hfj =>
    dsimp only at hdone
    by_cases hij : j = i
    · subst hij
      rw [hcw] at hcj
      cases hcj
    · rw [List.getElem?_set_ne hij, hcw] at hdone
      cases hdone
  | arrive_waiter j g' hcj hfj =>
    dsimp only at hdone
    by_cases hij : j = i
    · subst hij
      rw [hcw] at hcj
      cases hcj
    · rw [List.getElem?_set_ne hij, hcw] at hdone
      cases hdone
  | fetch_ok j gj v0 hcj =>
    dsimp only at hdone
    by_cases hij : j = i
    · subst hij
      rw [hcw] at hcj
      cases hcj
    · rw [List.getElem?_set_ne hij, hcw] at hdone
      cases hdone
  | fetch_err j gj e0 hcj =>
    dsimp only at hdone
    by_cases hij : j = i
    · subst hij
      rw [hcw] at hcj
      cases hcj
    · rw [List.getElem?_set_ne hij, hcw] at hdone
      cases hdone
  | wake j gj hcj =>
    dsimp only at hdone
    by_cases hij : j = i
    · subst hij
      rw [List.getElem?_set_self (getElem?_some_lt hcj)] at hdone
      simp only [Option.some.injEq, CPhase.done.injEq] at hdone
      exact hdone.symm
    · rw [List.getElem?_set_ne hij, hcw] at hdone
      cases hdone
  | cleanup g0 hg =>
    have hdone2 : s.callers[i]? = some (CPhase.done o) := hdone
    rw [hcw] at hdone2
    cases hdone2

/-- Claim C7, amended: single-flight as the code actually guarantees it.
In every reachable deduplicator state: (1) at most one caller is executing
the fetch function for the key at any time; (2) a caller arriving while a
fetch is in flight becomes a waiter on that fetch's event, never a second
fetcher; (3)/(4) any recorded result or error was produced by an actual
completed fetch of some caller; (5) a waiter falls back to invoking the
fetch function itself exactly when neither a result nor a non-`None` error
is recorded at the moment it reads the tables (bounded-wait expiry before
any completion, or the grace-period cleanup already removed the record);
(6)/(7) a waiter that returns a value (or re-raises an error) returns the
value (error) recorded at its wake — which is the outcome of the fetch it
waited on only if no later fetch for the same key completed in between, as
the counterexample trace shows. -/
theorem dedup_single_flight {V E : Type} (n : Nat) (s : DState V E)
    (h : DReach (dedupInit V E n) s) :
    (∀ (i j gi gj : Nat), s.callers[i]? = some (CPhase.fetching gi) →
      s.callers[j]? = some (CPhase.fetching gj) → i = j) ∧
    (∀ (i g : Nat) (s' : DState V E), s.inFlight = some g → DStep s s' →
      s.callers[i]? = some CPhase.start → s'.callers[i]? ≠ some CPhase.start →
      s'.callers[i]? = some (CPhase.waiting g)) ∧
    (∀ v, s.results = some v →
      ∃ i : Nat, s.callers[i]? = some ((CPhase.done (COutcome.returned v)) : CPhase V E)) ∧
    (∀ e, s.errors = some (some e) →
      ∃ i : Nat, s.callers[i]? = some ((CPhase.done (COutcome.raised e)) : CPhase V E)) ∧
    (∀ (i g : Nat) (s' : DState V E), DStep s s' →
      s.callers[i]? = some (CPhase.waiting g) →
      s'.callers[i]? = some ((CPhase.done COutcome.fellBack) : CPhase V E) →
      ((∀ e : E, s.errors ≠ some (some e)) ∧ s.results = none)) ∧
    (∀ (i g : Nat) (s' : DState V E) (v : V), DStep s s' →
      s.callers[i]? = some (CPhase.waiting g) →
      s'.callers[i]? = some (CPhase.done (COutcome.returned v)) →
      s.results = some v) ∧
    (∀ (i g : Nat) (s' : DState V E) (e : E), DStep s s' →
      s.callers[i]? = some (CPhase.waiting g) →
      s'.callers[i]? = some (CPhase.done (COutcome.raised e)) →
      s.errors = some (some e)) := by
  obtain ⟨ha, he, hc, hd⟩ := dedup_invariant h
  refine ⟨he, ?_, hc, hd, ?_, ?_, ?_⟩
  · intro i g s' hf hstep hc0 hne
    cases hstep with
    | arrive_fetcher j hcj hfj =>
      rw [hf] at hfj
      cases hfj
    | arrive_waiter j g' hcj hfj =>
      dsimp only at hne ⊢
      by_cases hij : j = i
      · subst hij
        rw [List.getElem?_set_self (getElem?_some_lt hcj)]
        rw [hf] at hfj
        simp only [Option.some.injEq] at hfj
        rw [hfj]
      · exfalso
        apply hne
        rw [List.getElem?_set_ne hij]
        exact hc0
    | fetch_ok j gj v0 hcj =>
      dsimp only at hne
      by_cases hij : j = i
      · subst hij
        rw [hc0] at hcj
        cases hcj
      · exfalso
        apply hne
        rw [List.getElem?_set_ne hij]
        exact hc0
    | fetch_err j gj e0 hcj =>
      dsimp only at hne
      by_cases hij : j = i
      · subst hij
        rw [hc0] at hcj
        cases hcj
      · exfalso
        apply hne
        rw [List.getElem?_set_ne hij]
        exact hc0
    | wake j gj hcj =>
      dsimp only at hne
      by_cases hij : j = i
      · subst hij
        rw [hc0] at hcj
        cases hcj
      · exfalso
        apply hne
        rw [List.getElem?_set_ne hij]
        exact hc0
    | cleanup g0 hg =>
      exact absurd hc0 hne
  · intro i g s' hstep hcw hdone
    have ho := dedup_wake_outcome hstep hcw hdone
    rcases herr : s.errors with _ | oe
    · rcases hres : s.results with _ | v0
      · exact ⟨fun e2 => by simp, rfl⟩
      · rw [herr, hres] at ho
        simp [wakeOutcome] at ho
    · rcases oe with _ | e0
      · rcases hres : s.results with _ | v0
        · exact ⟨fun e2 => by simp, rfl⟩
        · rw [herr, hres] at ho
          simp [wakeOutcome] at ho
      · rw [herr] at ho
        simp [wakeOutcome] at ho
  · intro i g s' v hstep hcw hdone
    have ho := dedup_wake_outcome hstep hcw hdone
    rcases herr : s.errors with _ | oe
    · rcases hres : s.results with _ | v0
      · rw [herr, hres] at ho
        simp [wakeOutcome] at ho
      · rw [herr, hres] at ho
        simp only [wakeOutcome, COutcome.returned.injEq] at ho
        rw [ho]
    · rcases oe with _ | e0
      · rcases hres : s.results with _ | v0
        · rw [herr, hres] at ho
          simp [wakeOutcome] at ho
        · rw [herr, hres] at ho
          simp only [wakeOutcome, COutcome.returned.injEq] at ho
          rw [ho]
      · rw [herr] at ho
        simp [wakeOutcome] at ho
  · intro i g s' e hstep hcw hdone
    have ho := dedup_wake_outcome hstep hcw hdone
    rcases herr : s.errors with _ | oe
    · rcases hres : s.results with _ | v0 <;>
      · rw [herr, hres] at ho
        simp [wakeOutcome] at ho
    · rcases oe with _ | e0
      · rcases hres : s.results with _ | v0 <;>
        · rw [herr, hres] at ho
          simp [wakeOutcome] at ho
      · rw [herr] at ho
        simp only [wakeOutcome, COutcome.raised.injEq] at ho
        rw [ho]

/-- Witness for `dedup_single_flight`, at the reachable state in which
caller 0's fetch has completed with value 1: the recorded result 1 was
produced by an actual fetch (caller 0's). -/
theorem dedup_single_flight_witness :
    ∃ i : Nat,
      dedupS3.callers[i]? = some ((CPhase.done (COutcome.returned 1)) : CPhase Nat Unit) :=
  (dedup_single_flight 3 dedupS3
    (Relation.ReflTransGen.tail dedupReach02 dedupStep23)).2.2.1 1 rfl
